import Mathlib

/-!
Shallow embedding of the CRPropa3 per-step simulation kernel (fork ehlertdo/CRPropa3):
the modules `PhotoDisintegration`, `ElectronPairProduction` and `PropagationBP`.

Machine doubles are embedded as real numbers; tabulated data files are embedded as
already-loaded tables (the `init*` parsers are out of scope); the random facility is
embedded as an explicit stream of uniform draws (`List ℝ`), consumed front-to-back;
C++ early `return` is encoded by returning `some` of the candidate, and the unbounded
`do/while` loops take an explicit fuel parameter (`none` = fuel exhausted, i.e. the
C++ loop would still be running).

Helper utilities that live outside the given source files (particle-id codecs, the
interpolation routines, `Random` helpers, `Vector3d`) are modelled from the spec and
marked `Modelled from the spec:` in their doc comments.
-/

noncomputable section

namespace crpropa

/-- Modelled from the spec: unit constants ("units" are declared out of scope by the
spec, §1); the embedding normalizes all unit constants to 1, which every claim is
invariant under. -/
def c_light : ℝ := 1

/-- Modelled from the spec: unit constant, normalized (see `c_light`). -/
def Mpc : ℝ := 1

/-- Modelled from the spec: unit constant, normalized (see `c_light`). -/
def eV : ℝ := 1

/-- Modelled from the spec: unit constant, normalized (see `c_light`). -/
def eplus : ℝ := 1

/-- Modelled from the spec: unit constant, normalized (see `c_light`). -/
def mass_proton : ℝ := 1

/-- `std::numeric_limits<double>::max()`, the sentinel the modules use for an
infinite loss length. -/
def doubleMax : ℝ := (17976931348623157 : ℝ) * 10 ^ 292

/-- Modelled from the spec: `clip(v, lo, hi)` from the support headers
(= `std::max(lo, std::min(v, hi))`). -/
def clip (v lo hi : ℝ) : ℝ := max lo (min v hi)

/-- `std::log10`. -/
def log10 (x : ℝ) : ℝ := Real.logb 10 x

/-- `std::round`, for the non-negative arguments the modules produce
(C++ rounds half away from zero, which agrees with `round` on non-negatives). -/
def cround (x : ℝ) : ℤ := round x

/-- `Vector3d` (outside the given sources; Modelled from the spec: position/direction
vectors). -/
structure Vector3 where
  x : ℝ
  y : ℝ
  z : ℝ

instance : Add Vector3 := ⟨fun a b => ⟨a.x + b.x, a.y + b.y, a.z + b.z⟩⟩
instance : Sub Vector3 := ⟨fun a b => ⟨a.x - b.x, a.y - b.y, a.z - b.z⟩⟩
instance : HMul Vector3 ℝ Vector3 := ⟨fun a r => ⟨a.x * r, a.y * r, a.z * r⟩⟩
instance : Zero Vector3 := ⟨⟨0, 0, 0⟩⟩

/-- `Vector3d::getR`, the Euclidean norm. -/
def Vector3.getR (v : Vector3) : ℝ := Real.sqrt (v.x ^ 2 + v.y ^ 2 + v.z ^ 2)

/-- `Vector3d::getUnitVector` (= `*this / getR()`); division by a zero norm
yields the zero vector under the real-field convention `x / 0 = 0`. -/
def Vector3.getUnitVector (v : Vector3) : Vector3 :=
  ⟨v.x / v.getR, v.y / v.getR, v.z / v.getR⟩

/-- `Vector3d::dot`. -/
def Vector3.dot (a b : Vector3) : ℝ := a.x * b.x + a.y * b.y + a.z * b.z

/-- `Vector3d::cross`. -/
def Vector3.cross (a b : Vector3) : Vector3 :=
  ⟨a.y * b.z - a.z * b.y, a.z * b.x - a.x * b.z, a.x * b.y - a.y * b.x⟩

/-- `Vector3d::getTheta` (Modelled from the spec: polar angle of a position vector;
only read inside the dead radial-scaling block of `ElectronPairProduction::process`,
whose value is discarded — see claim C10). -/
def Vector3.getTheta (v : Vector3) : ℝ := Real.arccos (v.z / v.getR)

/-- Modelled from the spec: "species id (encodes mass number + charge for nuclei, or
a simple code for leptons/photons)" — the PDG `10LZZZAAAI` nuclear codes used by
CRPropa: `nucleusId(A, Z) = 1000000000 + Z*10000 + A*10`. -/
def nucleusId (a z : ℤ) : ℤ := 1000000000 + z * 10000 + a * 10

/-- Modelled from the spec: a particle id is a nucleus iff its magnitude reaches the
nuclear-code range. -/
def isNucleus (id : ℤ) : Bool := 1000000000 ≤ id.natAbs

/-- Modelled from the spec: mass number decoded from a nuclear id. -/
def massNumber (id : ℤ) : ℤ := id / 10 % 1000

/-- Modelled from the spec: charge number decoded from a nuclear id. -/
def chargeNumber (id : ℤ) : ℤ := id / 10000 % 1000

/-- Modelled from the spec: nuclear mass utility (`nuclearMass`); the spec defines
the Lorentz factor as `E/(m c²)` with per-nucleon mass, embedded as `A·m_p`. -/
def nuclearMass (id : ℤ) : ℝ := (massNumber id : ℝ) * mass_proton

/-- Modelled from the spec: `ParticleState::getCharge` — nuclear charge `Z·e` for
nuclei; leptons/photons carry their elementary charges. -/
def charge (id : ℤ) : ℝ :=
  if isNucleus id then (chargeNumber id : ℝ) * eplus
  else if id = 11 then -eplus
  else if id = -11 then eplus
  else 0

/-- `digit(value, d)` from `ParticleID.h` (outside the given sources; Modelled from
the spec: "a composite integer whose decimal digits count emitted light fragments"):
the decimal digit of `value` at place value `d`. -/
def digit (v d : ℕ) : ℕ := v % (d * 10) / d

/-- One `ParticleState` snapshot: species id, energy, position, direction. -/
structure ParticleState where
  id : ℤ
  energy : ℝ
  position : Vector3
  direction : Vector3

/-- `ParticleState::getLorentzFactor` = `E / (m c²)`. -/
def ParticleState.lorentzFactor (p : ParticleState) : ℝ :=
  p.energy / (nuclearMass p.id * c_light ^ 2)

/-- `ParticleState::setLorentzFactor` rescales the energy at fixed mass. -/
def ParticleState.setLorentzFactor (p : ParticleState) (lf : ℝ) : ParticleState :=
  { p with energy := lf * (nuclearMass p.id * c_light ^ 2) }

/-- A secondary particle record as attached by `Candidate::addSecondary`:
id, energy, interpolated position, weight, and the producing process tag. -/
structure Secondary where
  id : ℤ
  energy : ℝ
  position : Vector3
  weight : ℝ
  tag : String

/-- The `Candidate` fields the kernel touches. -/
structure Candidate where
  current : ParticleState
  previous : ParticleState
  created : ParticleState
  secondaries : List Secondary
  redshift : ℝ
  currentStep : ℝ
  nextStep : ℝ
  tagOrigin : String

/-- `Candidate::limitNextStep`. -/
def Candidate.limitNextStep (c : Candidate) (d : ℝ) : Candidate :=
  { c with nextStep := min c.nextStep d }

/-- `Candidate::addSecondary` appends one secondary. -/
def Candidate.addSecondary (c : Candidate) (id : ℤ) (e : ℝ) (pos : Vector3)
    (w : ℝ) (tag : String) : Candidate :=
  { c with secondaries := c.secondaries ++ [⟨id, e, pos, w, tag⟩] }

/-- `n` identical `addSecondary` calls (the per-fragment `for` loops of
`PhotoDisintegration::performInteraction`). -/
def Candidate.addSecondaries (c : Candidate) (n : ℕ) (id : ℤ) (e : ℝ)
    (pos : Vector3) (tag : String) : Candidate :=
  match n with
  | 0 => c
  | n + 1 => (c.addSecondary id e pos 1 tag).addSecondaries n id e pos tag

/-- The random facility embedded as a stream of uniform draws: take the front draw
(0 when the stream is exhausted, which no theorem relies on). -/
def randTake (rs : List ℝ) : ℝ × List ℝ :=
  match rs with
  | [] => (0, [])
  | u :: us => (u, us)

/-- Modelled from the spec: `Random::randomInterpolatedPosition` — "a position
linearly interpolated (with a uniform random fraction) between the candidate's
previous and current positions". -/
def randomInterpolatedPosition (a b : Vector3) (u : ℝ) : Vector3 := a + (b - a) * u

/-- Modelled from the spec: `Random::randBin` — draw from a discretized cumulative
distribution: the index found by upper-bounding `u · cdf.back()` in the cdf. -/
def randBin (cdf : List ℝ) (u : ℝ) : ℕ :=
  (cdf.takeWhile (fun v => v ≤ u * cdf.getLastD 0)).length

/-- Modelled from the spec: `interpolateEquidistant` — "linear interpolation within
the tabulated Lorentz-factor domain", over `n` equidistant samples on `[lo, hi]`. -/
def interpolateEquidistant (x lo hi : ℝ) (Y : List ℝ) : ℝ :=
  let t := (x - lo) / (hi - lo) * ((Y.length : ℝ) - 1)
  let i := (⌊t⌋).toNat
  Y.getD i 0 + (t - (i : ℝ)) * (Y.getD (i + 1) 0 - Y.getD i 0)

/-- Modelled from the spec: `interpolate` — linear interpolation on a (strictly
increasing) tabulated grid `X` with values `Y`. -/
def interpolate (x : ℝ) (X Y : List ℝ) : ℝ :=
  match X, Y with
  | _, [] => 0
  | [], _ => 0
  | [_], y0 :: _ => y0
  | x0 :: x1 :: xs, y0 :: ys =>
    if x < x1 then y0 + (x - x0) / (x1 - x0) * (ys.headD 0 - y0)
    else interpolate x (x1 :: xs) ys

/-- The photon-field collaborator interface the modules query (external collaborator;
Modelled from the spec: redshift scaling, radial scaling, and the dust-ring scale
radii read by the modules). -/
structure PhotonFieldM where
  redshiftScaling : ℝ → ℝ
  radialScaling : ℝ → ℝ
  hasScaleRadius : Bool
  scaleRadius : ℝ
  outerRadius : ℝ

/-! ## PhotoDisintegration (src/module/PhotoDisintegration.cpp) -/

/-- `PhotoDisintegration::lgmin`. -/
def lgmin : ℝ := 4

/-- `PhotoDisintegration::lgmax`. -/
def lgmax : ℝ := 14

/-- `PhotoDisintegration::nlg`. -/
def nlg : ℕ := 251

/-- One branching-table row (`PhotoDisintegration::Branch`): channel code and
per-bin branching ratios. -/
structure Branch where
  channel : ℕ
  ratios : List ℝ

/-- One photon-emission line (`PhotoDisintegration::PhotonEmission`). -/
structure PhotonEmission where
  energy : ℝ
  emissionProbability : List ℝ

/-- The loaded state of a `PhotoDisintegration` module: photon field, loaded
tables (`pdRate` indexed by `Z*31+N`, `pdBranch` likewise, `pdPhoton` keyed by the
transition code), and the configuration flags. -/
structure PDEnv where
  photonField : PhotonFieldM
  pdRate : ℤ → List ℝ
  pdBranch : ℤ → List Branch
  pdPhoton : ℤ → List PhotonEmission
  havePhotons : Bool
  limit : ℝ
  interactionTag : String

/-- The channel-selection loop of `PhotoDisintegration::process` (lines 194–198):
subtract successive ratios from the draw while it stays positive; the returned
value is the final loop counter `i`. -/
def selectIdx (ratios : List ℝ) (cmp : ℝ) : ℕ :=
  match ratios with
  | [] => 0
  | r :: rest => if cmp > 0 then 1 + selectIdx rest (cmp - r) else 0

/-- The per-bin ratios of a branch list at tabulation point `l`, and the final
counter of the selection loop run on them. -/
def pdSelect (branches : List Branch) (l : ℕ) (cmp : ℝ) : ℕ :=
  selectIdx (branches.map fun b => b.ratios.getD l 0) cmp

/-- The channel index the source reads after the selection loop (`branches[i-1]`). -/
def pdChosen (branches : List Branch) (l : ℕ) (cmp : ℝ) : ℕ :=
  pdSelect branches l cmp - 1

/-- The photon-emission loop of `PhotoDisintegration::performInteraction`
(lines 265–274): for each line, accept with the tabulated probability at bin `l`,
then boost an isotropic rest-frame photon to the lab frame. -/
def photonLoop (tag : String) (l : ℕ) (lf : ℝ) (pos : Vector3) :
    List PhotonEmission → Candidate × List ℝ → Candidate × List ℝ
  | [], st => st
  | em :: rest, (c, rs) =>
    let (u, rs) := randTake rs
    if u > em.emissionProbability.getD l 0 then
      photonLoop tag l lf pos rest (c, rs)
    else
      let (u2, rs) := randTake rs
      let cosTheta := 2 * u2 - 1
      let e := em.energy * lf * (1 - cosTheta)
      photonLoop tag l lf pos rest (c.addSecondary 22 e pos 1 tag, rs)

/-- `PhotoDisintegration::performInteraction` (lines 206–275). -/
def performInteraction (env : PDEnv) (c : Candidate) (channel : ℕ)
    (rs : List ℝ) : Candidate × List ℝ :=
  -- parse disintegration channel
  let nNeutron := digit channel 100000
  let nProton := digit channel 10000
  let nH2 := digit channel 1000
  let nH3 := digit channel 100
  let nHe3 := digit channel 10
  let nHe4 := digit channel 1
  let dA : ℤ := -(nNeutron : ℤ) - nProton - 2 * nH2 - 3 * nH3 - 3 * nHe3 - 4 * nHe4
  let dZ : ℤ := -(nProton : ℤ) - nH2 - nH3 - 2 * nHe3 - 2 * nHe4
  let id := c.current.id
  let A := massNumber id
  let Z := chargeNumber id
  let epa := c.current.energy / (A : ℝ)
  -- create secondaries
  let (u, rs) := randTake rs
  let pos := randomInterpolatedPosition c.previous.position c.current.position u
  let c := c.addSecondaries nNeutron (nucleusId 1 0) epa pos env.interactionTag
  let c := c.addSecondaries nProton (nucleusId 1 1) epa pos env.interactionTag
  let c := c.addSecondaries nH2 (nucleusId 2 1) (epa * 2) pos env.interactionTag
  let c := c.addSecondaries nH3 (nucleusId 3 1) (epa * 3) pos env.interactionTag
  let c := c.addSecondaries nHe3 (nucleusId 3 2) (epa * 3) pos env.interactionTag
  let c := c.addSecondaries nHe4 (nucleusId 4 2) (epa * 4) pos env.interactionTag
  -- update particle
  let newCurrent : ParticleState :=
    { c.current with id := nucleusId (A + dA) (Z + dZ), energy := epa * ((A + dA : ℤ) : ℝ) }
  let c := { c with created := c.current, current := newCurrent }
  if ¬env.havePhotons then (c, rs)
  else
    -- create photons
    let z := c.redshift
    let lg := log10 (c.current.lorentzFactor * (1 + z))
    let lf := c.current.lorentzFactor
    let l := (cround ((lg - lgmin) / (lgmax - lgmin) * ((nlg : ℝ) - 1))).toNat
    let key : ℤ := Z * 1000000 + (A - Z) * 10000 + (Z + dZ) * 100 + ((A + dA) - (Z + dZ))
    photonLoop env.interactionTag l lf pos (env.pdPhoton key) (c, rs)

/-- The fully scaled interaction rate `PhotoDisintegration::process` computes
(lines 174–179): interpolated tabulated rate, cosmological scaling, radial photon
field scaling. -/
def pdRateOf (env : PDEnv) (c : Candidate) : ℝ :=
  let id := c.current.id
  let A := massNumber id
  let Z := chargeNumber id
  let idx := Z * 31 + (A - Z)
  let z := c.redshift
  let lg := log10 (c.current.lorentzFactor * (1 + z))
  interpolateEquidistant lg lgmin lgmax (env.pdRate idx) * (1 + z) ^ 2
    * env.photonField.redshiftScaling z
    * env.photonField.radialScaling c.current.position.getR

/-- The `do { … } while (step > 0)` loop body of `PhotoDisintegration::process`
(lines 151–203), with explicit fuel; `none` means the fuel ran out. -/
def pdProcessLoop (env : PDEnv) : ℕ → Candidate → ℝ → List ℝ → Option Candidate
  | 0, _, _, _ => none
  | fuel + 1, c, step, rs =>
    -- check if nucleus
    let id := c.current.id
    if ¬isNucleus id then some c
    else
      let A := massNumber id
      let Z := chargeNumber id
      let N := A - Z
      let idx := Z * 31 + N
      -- check if disintegration data available
      if Z > 26 ∨ N > 30 then some c
      else if (env.pdRate idx).length = 0 then some c
      else
        -- check if in tabulated energy range
        let z := c.redshift
        let lg := log10 (c.current.lorentzFactor * (1 + z))
        if lg ≤ lgmin ∨ lg ≥ lgmax then some c
        else
          let rate := pdRateOf env c
          -- check if interaction occurs in this step
          let (u, rs) := randTake rs
          let randDist := -Real.log u / rate
          if step < randDist then some (c.limitNextStep (env.limit / rate))
          else
            -- select channel and interact
            let branches := env.pdBranch idx
            let (cmp, rs) := randTake rs
            let l := (cround ((lg - lgmin) / (lgmax - lgmin) * ((nlg : ℝ) - 1))).toNat
            let i := pdSelect branches l cmp
            let (c, rs) := performInteraction env c ((branches.getD (i - 1) ⟨0, []⟩).channel) rs
            -- repeat with remaining step
            let step := step - randDist
            if step > 0 then pdProcessLoop env fuel c step rs else some c

/-- `PhotoDisintegration::process` (lines 148–204). -/
def pdProcess (env : PDEnv) (fuel : ℕ) (c : Candidate) (rs : List ℝ) : Option Candidate :=
  pdProcessLoop env fuel c c.currentStep rs

/-- The weighted digit sum `dA` used by `PhotoDisintegration::lossLength`
(lines 310–316): the average mass loss of a channel. -/
def channelDA (channel : ℕ) : ℕ :=
  digit channel 100000 + digit channel 10000 + 2 * digit channel 1000
    + 3 * digit channel 100 + 3 * digit channel 10 + 4 * digit channel 1

/-- `PhotoDisintegration::lossLength` (lines 277–324). -/
def pdLossLength (env : PDEnv) (id : ℤ) (gamma z : ℝ) : ℝ :=
  if ¬isNucleus id then doubleMax
  else
    let A := massNumber id
    let Z := chargeNumber id
    let N := A - Z
    let idx := Z * 31 + N
    if Z > 26 ∨ N > 30 then doubleMax
    else if (env.pdRate idx).length = 0 then doubleMax
    else
      let lg := log10 (gamma * (1 + z))
      if lg ≤ lgmin ∨ lg ≥ lgmax then doubleMax
      else
        let lossRate₀ := interpolateEquidistant lg lgmin lgmax (env.pdRate idx)
          * (1 + z) ^ 3 * env.photonField.redshiftScaling z
        let avgDA := ((env.pdBranch idx).map fun b =>
          interpolateEquidistant lg lgmin lgmax b.ratios * (channelDA b.channel : ℝ)).sum
        1 / (lossRate₀ * avgDA / (A : ℝ))

/-! ## ElectronPairProduction (src/module/ElectronPairProduction.cpp) -/

/-- The loaded state of an `ElectronPairProduction` module: Lorentz-factor grid and
loss-rate table (`initRate`), cumulative secondary spectra (`initSpectrum`), photon
field and configuration. -/
structure EPPEnv where
  photonField : PhotonFieldM
  tabLorentzFactor : List ℝ
  tabLossRate : List ℝ
  tabSpectrum : List (List ℝ)
  haveElectrons : Bool
  limit : ℝ
  interactionTag : String

/-- `ElectronPairProduction::lossLength` (lines 86–104). -/
def eppLossLength (env : EPPEnv) (id : ℤ) (lf z : ℝ) : ℝ :=
  let Z : ℝ := (chargeNumber id : ℝ)
  if Z = 0 then doubleMax -- no pair production on uncharged particles
  else
    let lf := lf * (1 + z)
    if lf < env.tabLorentzFactor.headD 0 then doubleMax -- below energy threshold
    else
      let rate :=
        if lf < env.tabLorentzFactor.getLastD 0 then
          interpolate lf env.tabLorentzFactor env.tabLossRate -- interpolation
        else
          env.tabLossRate.getLastD 0 *
            (lf / env.tabLorentzFactor.getLastD 0) ^ (-0.6 : ℝ) -- extrapolation
      let A := nuclearMass id / mass_proton
      1 / (rate * Z ^ 2 / A * (1 + z) ^ 3 * env.photonField.redshiftScaling z)

/-- The pair-drawing `while (dE > 0)` loop of `ElectronPairProduction::process`
(lines 163–177), with explicit fuel; returns the list of created secondaries and
the remaining random stream (`none` = fuel ran out).  The source appends the
secondaries to the candidate as it draws them; returning the drawn list and
appending it once is the same mutation. -/
def eppDrawPairs (env : EPPEnv) (i : ℕ) :
    ℕ → ℝ → Vector3 → Vector3 → List ℝ → Option (List Secondary × List ℝ)
  | fuel, dE, pPrev, pCur, rs =>
    if ¬dE > 0 then some ([], rs)
    else
      match fuel with
      | 0 => none
      | fuel + 1 =>
        let (u1, rs) := randTake rs
        let j := randBin (env.tabSpectrum.getD i []) u1
        let (u2, rs) := randTake rs
        let ee := (10 : ℝ) ^ (6.95 + ((j : ℝ) + u2) * 0.1) * eV
        let epair := 2 * ee
        -- if the remaining energy is not sufficient check for random accepting
        if epair > dE then
          let (u3, rs) := randTake rs
          if u3 > dE / epair then some ([], rs) -- not accepted
          else
            -- create pair and repeat with remaining energy
            let (u4, rs) := randTake rs
            let pos := randomInterpolatedPosition pPrev pCur u4
            match eppDrawPairs env i fuel (dE - epair) pPrev pCur rs with
            | none => none
            | some (secs, rsOut) =>
              some (⟨11, ee, pos, 1, env.interactionTag⟩ ::
                    ⟨-11, ee, pos, 1, env.interactionTag⟩ :: secs, rsOut)
        else
          let (u4, rs) := randTake rs
          let pos := randomInterpolatedPosition pPrev pCur u4
          match eppDrawPairs env i fuel (dE - epair) pPrev pCur rs with
          | none => none
          | some (secs, rsOut) =>
            some (⟨11, ee, pos, 1, env.interactionTag⟩ ::
                  ⟨-11, ee, pos, 1, env.interactionTag⟩ :: secs, rsOut)

/-- The index of the closest tabulated cdf (`i = round((log10(lf) - 6.05) * 10)`
clamped to `[0, 69]`, line 158–159). -/
def eppSpectrumIdx (lf : ℝ) : ℕ :=
  (min (max (cround ((log10 lf - 6.05) * 10)) 0) 69).toNat

/-- The dead radial-scaling block of `ElectronPairProduction::process`
(lines 111–144): in the source the `pos_scale` computed here is a *new* local
variable that shadows the outer `pos_scale`, so this value is discarded (C10). -/
def eppShadowedPosScale (pf : PhotonFieldM) (pos : Vector3) : ℝ :=
  -- undo pre-scaling to scaleRadius
  let r1 := pf.scaleRadius
  let theta1 : ℝ := 0
  let divisor1 := Real.sqrt (r1 ^ 4 + 2 * (r1 * pf.outerRadius) ^ 2 * Real.cos (2 * theta1)
    + pf.outerRadius ^ 4)
  let dividend1 := 2 * Real.arctan (Real.tan (-(Real.pi / 2))
    * (r1 ^ 2 + 2 * r1 * pf.outerRadius * Real.sin theta1 + pf.outerRadius ^ 2) / divisor1)
  let ps := -divisor1 / dividend1
  -- scale to correct radius
  let r2 := pos.getR
  let theta2 := pos.getTheta
  let divisor2 := Real.sqrt (r2 ^ 4 + 2 * (r2 * pf.outerRadius) ^ 2 * Real.cos (2 * theta2)
    + pf.outerRadius ^ 4)
  let dividend2 := 2 * Real.arctan (Real.tan (-(Real.pi / 2))
    * (r2 ^ 2 + 2 * r2 * pf.outerRadius * Real.sin theta2 + pf.outerRadius ^ 2) / divisor2)
  ps * (-dividend2 / divisor2)

/-- `ElectronPairProduction::process` (lines 106–182). -/
def eppProcess (env : EPPEnv) (fuel : ℕ) (c : Candidate) (rs : List ℝ) : Option Candidate :=
  let id := c.current.id
  if ¬isNucleus id then some c -- only nuclei
  else
    -- radial dependence of the photon field: the block's local pos_scale shadows
    -- this outer one in the source, so the outer value stays 1 (claim C10)
    let posScale : ℝ := 1
    let _shadowed : ℝ :=
      if env.photonField.hasScaleRadius then
        eppShadowedPosScale env.photonField c.current.position
      else posScale
    let lf := c.current.lorentzFactor
    let z := c.redshift
    let losslen := eppLossLength env id lf z -- energy loss length
    let losslen := losslen / posScale -- apply radial dependence of photon field
    if losslen ≥ doubleMax then some c
    else
      let step := c.currentStep / (1 + z) -- step size in local frame
      let loss := step / losslen -- relative energy loss
      let finish : Candidate → Candidate := fun c2 =>
        ({ c2 with current := c2.current.setLorentzFactor (lf * (1 - loss)) }).limitNextStep
          (env.limit * losslen)
      if env.haveElectrons then
        let dE := c.current.energy * loss -- energy loss
        let i := eppSpectrumIdx lf
        match eppDrawPairs env i fuel dE c.previous.position c.current.position rs with
        | none => none
        | some (secs, _) => some (finish { c with secondaries := c.secondaries ++ secs })
      else some (finish c)

/-- `ElectronPairProduction::process` with the dead radial-scaling block removed:
the spec-side reference for the refinement claim C10. -/
def eppProcessNoRadial (env : EPPEnv) (fuel : ℕ) (c : Candidate) (rs : List ℝ) :
    Option Candidate :=
  let id := c.current.id
  if ¬isNucleus id then some c
  else
    let lf := c.current.lorentzFactor
    let z := c.redshift
    let losslen := eppLossLength env id lf z
    if losslen ≥ doubleMax then some c
    else
      let step := c.currentStep / (1 + z)
      let loss := step / losslen
      let finish : Candidate → Candidate := fun c2 =>
        ({ c2 with current := c2.current.setLorentzFactor (lf * (1 - loss)) }).limitNextStep
          (env.limit * losslen)
      if env.haveElectrons then
        let dE := c.current.energy * loss
        let i := eppSpectrumIdx lf
        match eppDrawPairs env i fuel dE c.previous.position c.current.position rs with
        | none => none
        | some (secs, _) => some (finish { c with secondaries := c.secondaries ++ secs })
      else some (finish c)

/-! ## PropagationBP (src/module/PropagationBP.cpp) -/

/-- `PropagationBP::Y`: phase point (position, direction).  (The header is outside
the given sources; Modelled from the spec: the integrator state.) -/
structure Y where
  x : Vector3
  u : Vector3

/-- The state of a `PropagationBP` module: the magnetic field (`none` = invalid
reference), the advection field, and the configuration. -/
structure BPEnv where
  field : Option (Vector3 → ℝ → Vector3)
  advField : Vector3 → Vector3
  tolerance : ℝ
  minStep : ℝ
  maxStep : ℝ
  shockRadius : ℝ

/-- `PropagationBP::getFieldAtPosition` (lines 164–186): the field vector, with the
radial shock attenuation applied for `R < shockRadius`. -/
def getFieldAtPosition (env : BPEnv) (pos : Vector3) (z : ℝ) : Vector3 :=
  let b := match env.field with
    | some f => f pos z
    | none => 0
  let r := pos.getR
  if env.shockRadius > r then b * ((env.shockRadius / r) / Real.sqrt 11) else b

/-- `PropagationBP::getAdvFieldAtPosition` (lines 189–202).  Note the source guards
the advection query with `field.valid()` (the magnetic field), not the advection
field; embedded faithfully. -/
def getAdvFieldAtPosition (env : BPEnv) (pos : Vector3) : Vector3 :=
  match env.field with
  | some _ => env.advField pos
  | none => 0

/-- `PropagationBP::dY` (lines 19–52): advected Boris push over one step. -/
def dY (env : BPEnv) (pos dir : Vector3) (step z q m : ℝ) : Y :=
  -- velocity of advection field
  let vWind := getAdvFieldAtPosition env pos
  -- add advection vector to propagation direction
  let dirTot := (dir + vWind.getUnitVector * (vWind.getR / c_light)).getUnitVector
  -- half leap frog step in the position
  let pos := pos + dirTot * (step / 2)
  -- get B field at particle position
  let b := getFieldAtPosition env pos z
  -- Boris help vectors
  let t := b * (q / 2 / m * step / c_light)
  let s := t * (2 / (1 + t.dot t))
  -- Boris push
  let vHelp := dir + dir.cross t
  let dir := dir + vHelp.cross s
  -- include advection for the second half step
  let dirTot2 := (dir + vWind.getUnitVector * (vWind.getR / c_light)).getUnitVector
  -- the other half leap frog step in the position
  let pos := pos + dirTot2 * (step / 2)
  ⟨pos, dir⟩

/-- `PropagationBP::errorEstimation` (lines 205–212). -/
def errorEstimation (x1 x2 : Vector3) (step : ℝ) : ℝ :=
  (x1 - x2).getR / (step * (1 - 1 / 4))

/-- `PropagationBP::tryStep` (lines 8–16): one full step, two half steps, and the
embedded error estimate.  (The source stuffs the scalar error into a `Y`; the spec
reads it as the scalar `error = |pos(full) − pos(2×half)| / (step·(1−¼))`, which is
what the retry loop compares against the tolerance.) -/
def tryStep (env : BPEnv) (y : Y) (h z q m : ℝ) : Y × ℝ :=
  let out := dY env y.x y.u h z q m
  let outHelp := dY env y.x y.u (h / 2) z q m
  let outCompare := dY env outHelp.x outHelp.u (h / 2) z q m
  (out, errorEstimation out.x outCompare.x h)

/-- The step-shrinking update of the retry loop (lines 121–123):
`0.95·r^(−0.2)`, clamped to at least a 10% reduction and at least `minStep`. -/
def bpShrink (minStep step r : ℝ) : ℝ :=
  max (max (step * 0.95 * r ^ (-0.2 : ℝ)) (0.1 * step)) minStep

/-- The next-step growth update on acceptance (lines 128–130):
clamped to at most `5·step` and at most `maxStep`. -/
def bpGrow (maxStep step r : ℝ) : ℝ :=
  min (min (step * 0.95 * r ^ (-0.2 : ℝ)) (5 * step)) maxStep

/-- The adaptive `while (true)` retry loop of `PropagationBP::process`
(lines 114–134), with explicit fuel; returns `(yOut, step, newStep)` on acceptance,
`none` when the fuel ran out. -/
def bpLoop (env : BPEnv) : ℕ → Y → ℝ → ℝ → ℝ → ℝ → ℝ → Option (Y × ℝ × ℝ)
  | 0, _, _, _, _, _, _ => none
  | fuel + 1, yIn, z, q, m, step, newStep =>
    let (yOut, err) := tryStep env yIn step z q m
    let r := err / env.tolerance -- ratio of absolute direction error and tolerance
    if r > 1 then -- large error: try to decrease step size
      if step = env.minStep then some (yOut, step, newStep) -- already minimum step size
      else
        let ns := bpShrink env.minStep step r
        bpLoop env fuel yIn z q m ns ns
    else -- small error: try to increase step size
      let ns := if step ≠ env.maxStep then bpGrow env.maxStep step r else newStep
      some (yOut, step, ns)

/-- `PropagationBP::process` (lines 79–141), with explicit fuel for the retry
loop (`none` = the loop would still be running). -/
def bpProcess (env : BPEnv) (fuel : ℕ) (c : Candidate) : Option Candidate :=
  -- save the new previous particle state
  let c := { c with previous := c.current }
  let yIn : Y := ⟨c.current.position, c.current.direction⟩
  let q := charge c.current.id
  -- rectilinear propagation for neutral particles
  if q = 0 then
    let step := clip c.nextStep env.minStep env.maxStep
    let cur := { c.current with position := yIn.x + yIn.u * step }
    some { c with current := cur, currentStep := step, nextStep := env.maxStep }
  else
    let z := c.redshift
    let m := c.current.energy / (c_light * c_light)
    if env.minStep = env.maxStep then
      -- fixed step: no error estimation needed
      let yOut := dY env yIn.x yIn.u env.maxStep z q m
      let cur := { c.current with position := yOut.x, direction := yOut.u.getUnitVector }
      some { c with current := cur, currentStep := env.maxStep, nextStep := env.maxStep }
    else
      let step := clip c.nextStep env.minStep env.maxStep
      match bpLoop env fuel yIn z q m step step with
      | none => none
      | some (yOut, stepOut, newStep) =>
        let cur := { c.current with position := yOut.x, direction := yOut.u.getUnitVector }
        some { c with current := cur, currentStep := stepOut, nextStep := newStep }

/-- The configuration state touched by the `PropagationBP` setters. -/
structure BPConfig where
  tolerance : ℝ
  minStep : ℝ
  maxStep : ℝ
  shockRadius : ℝ

/-- `PropagationBP::setTolerance` (lines 215–220): note the accepted range is the
closed interval `[0, 1]` (`tol > 1 or tol < 0` throws). -/
def setTolerance (tol : ℝ) (cfg : BPConfig) : Except String BPConfig :=
  if tol > 1 ∨ tol < 0 then Except.error "PropagationBP: target error not in range 0-1"
  else Except.ok { cfg with tolerance := tol }

/-- `PropagationBP::setMinimumStep` (lines 223–229). -/
def setMinimumStep (m : ℝ) (cfg : BPConfig) : Except String BPConfig :=
  if m < 0 then Except.error "PropagationBP: minStep < 0 "
  else if m > cfg.maxStep then Except.error "PropagationBP: minStep > maxStep"
  else Except.ok { cfg with minStep := m }

/-- `PropagationBP::setMaximumStep` (lines 232–236). -/
def setMaximumStep (m : ℝ) (cfg : BPConfig) : Except String BPConfig :=
  if m < cfg.minStep then Except.error "PropagationBP: maxStep < minStep"
  else Except.ok { cfg with maxStep := m }

/-- The adaptive constructor (lines 68–76): members start with `minStep = 0`
(the other doubles are default-initialized; embedded as 0, which no check reads
before it is set), then the setters run in source order. -/
def mkPropagationBP (tolerance minStep maxStep shockRadius : ℝ) : Except String BPConfig :=
  let cfg : BPConfig := { tolerance := 0, minStep := 0, maxStep := 0, shockRadius := 0 }
  match setTolerance tolerance cfg with
  | Except.error e => Except.error e
  | Except.ok cfg =>
    match setMaximumStep maxStep cfg with
    | Except.error e => Except.error e
    | Except.ok cfg =>
      match setMinimumStep minStep cfg with
      | Except.error e => Except.error e
      | Except.ok cfg => Except.ok { cfg with shockRadius := shockRadius }

/-! ## Claim-side bookkeeping definitions -/

/-- Baryon (mass) number carried by a particle id: the decoded mass number for
nuclei, zero for leptons and photons. -/
def baryonNumber (id : ℤ) : ℤ := if isNucleus id then massNumber id else 0

/-- Nuclear charge number carried by a particle id (photons carry none). -/
def nucChargeNumber (id : ℤ) : ℤ := if isNucleus id then chargeNumber id else 0

/-- Summed baryon number of a secondary list. -/
def secBaryonSum (l : List Secondary) : ℤ := (l.map fun s => baryonNumber s.id).sum

/-- Summed charge number of a secondary list. -/
def secChargeSum (l : List Secondary) : ℤ := (l.map fun s => nucChargeNumber s.id).sum

/-- Summed energy of a secondary list. -/
def secEnergySum (l : List Secondary) : ℝ := (l.map fun s => s.energy).sum

/-- Summed energy of the non-photon (nuclear fragment) secondaries. -/
def secFragmentEnergySum (l : List Secondary) : ℝ :=
  ((l.filter fun s => s.id ≠ 22).map fun s => s.energy).sum

/-- The species/energy content of a secondary, forgetting its bookkeeping
position. -/
def secProj (s : Secondary) : ℤ × ℝ := (s.id, s.energy)

/-- The observables of claim C10: resulting energy, step limit, and the produced
secondaries (as species/energy records). -/
def eppObservables (c : Candidate) : ℝ × ℝ × List (ℤ × ℝ) :=
  (c.current.energy, c.nextStep, c.secondaries.map secProj)

/-- The mass-number delta a disintegration channel's digits encode
(`dA` of `performInteraction`). -/
def channelDeltaA (channel : ℕ) : ℤ :=
  -(digit channel 100000 : ℤ) - digit channel 10000 - 2 * digit channel 1000
    - 3 * digit channel 100 - 3 * digit channel 10 - 4 * digit channel 1

/-- The charge delta a disintegration channel's digits encode
(`dZ` of `performInteraction`). -/
def channelDeltaZ (channel : ℕ) : ℤ :=
  -(digit channel 10000 : ℤ) - digit channel 1000 - digit channel 100
    - 2 * digit channel 10 - 2 * digit channel 1

/-- The applicability guards of `PhotoDisintegration::process` that the source
answers with an early `return` (claim C5): wrong species, nuclide outside the
table, missing `(Z,N)` data, or Lorentz factor outside the tabulated range
(both below *and* at-or-above the upper bound). -/
def pdInapplicable (env : PDEnv) (c : Candidate) : Prop :=
  isNucleus c.current.id = false
    ∨ chargeNumber c.current.id > 26
    ∨ massNumber c.current.id - chargeNumber c.current.id > 30
    ∨ (env.pdRate (chargeNumber c.current.id * 31
        + (massNumber c.current.id - chargeNumber c.current.id))).length = 0
    ∨ log10 (c.current.lorentzFactor * (1 + c.redshift)) ≤ lgmin
    ∨ log10 (c.current.lorentzFactor * (1 + c.redshift)) ≥ lgmax

/-- The applicability guards of `ElectronPairProduction::process` that end in a
no-op (claim C5): wrong species, uncharged, or Lorentz factor *below* the
tabulated domain. -/
def eppInapplicable (env : EPPEnv) (c : Candidate) : Prop :=
  isNucleus c.current.id = false
    ∨ chargeNumber c.current.id = 0
    ∨ (isNucleus c.current.id = true
        ∧ c.current.lorentzFactor * (1 + c.redshift) < env.tabLorentzFactor.headD 0)

/-- Divergence of the `PropagationBP` retry loop: no amount of fuel makes
`process` return (the C++ `while (true)` loop never exits). -/
def bpProcessDiverges (env : BPEnv) (c : Candidate) : Prop :=
  ∀ n, bpProcess env n c = none

/-! ## Concrete instances used by witnesses and counterexamples -/

/-- A photon field with trivial scalings and no finite extent. -/
def constPF : PhotonFieldM :=
  { redshiftScaling := fun _ => 1, radialScaling := fun _ => 1,
    hasScaleRadius := false, scaleRadius := 0, outerRadius := 0 }

/-- A particle state at the origin moving along x. -/
def mkState (id : ℤ) (e : ℝ) : ParticleState := ⟨id, e, ⟨0, 0, 0⟩, ⟨1, 0, 0⟩⟩

/-- A fresh candidate (previous = created = current, no secondaries, z = 0). -/
def mkCand (id : ℤ) (e step next : ℝ) : Candidate :=
  ⟨mkState id e, mkState id e, mkState id e, [], 0, step, next, ""⟩

/-- A loaded photo-disintegration table with one nuclide (He-4, `idx = 64`): unit
rate in every bin and a single one-neutron-emission channel of unit branching
ratio. -/
def pdEnvC : PDEnv :=
  { photonField := constPF,
    pdRate := fun idx => if idx = 64 then List.replicate 251 1 else [],
    pdBranch := fun idx => if idx = 64 then [⟨100000, List.replicate 251 1⟩] else [],
    pdPhoton := fun _ => [],
    havePhotons := false, limit := 1 / 10, interactionTag := "PD" }

/-- `pdEnvC` with photon emission enabled and one tabulated gamma line (rest-frame
energy 5, emission probability 1 in every bin) for the He-4 → He-3 transition. -/
def pdEnvPhoton : PDEnv :=
  { pdEnvC with havePhotons := true,
                pdPhoton := fun k => if k = 2020201 then [⟨5, List.replicate 251 1⟩] else [] }

/-- A He-4 candidate with Lorentz factor `10^8`, unit current step, and a huge
sentinel next step. -/
def cHe4 : Candidate := mkCand (nucleusId 4 2) (4 * 10 ^ 8) 1 (10 ^ 30)

/-- The candidate `pdEnvC`'s `process` produces from `cHe4` when the free-path
draw equals the current step exactly: one neutron emitted, He-3 residual, and —
the point of claim C2's counterexample — `nextStep` untouched. -/
def cHe4out : Candidate :=
  { cHe4 with
      created := cHe4.current,
      current := { cHe4.current with id := nucleusId 3 2, energy := 10 ^ 8 * 3 },
      secondaries := [⟨nucleusId 1 0, 10 ^ 8, ⟨0, 0, 0⟩, 1, "PD"⟩] }

/-- The candidate `performInteraction` (with `pdEnvPhoton`) produces from `cHe4`
on channel 100000 with an accepted photon at `cos θ = −1`: the photon carries
energy `2 × 5 × 10^8` on top of the conserved nuclear energy. -/
def cHe4photonOut : Candidate :=
  { cHe4 with
      created := cHe4.current,
      current := { cHe4.current with id := nucleusId 3 2, energy := 10 ^ 8 * 3 },
      secondaries := [⟨nucleusId 1 0, 10 ^ 8, ⟨0, 0, 0⟩, 1, "PD"⟩,
                      ⟨22, 10 ^ 9, ⟨0, 0, 0⟩, 1, "PD"⟩] }

/-- A pair-production table with two grid points. -/
def eppEnvW : EPPEnv :=
  { photonField := constPF, tabLorentzFactor := [100, 10000], tabLossRate := [2, 3],
    tabSpectrum := [], haveElectrons := false, limit := 1 / 10, interactionTag := "EPP" }

/-- A proton candidate sitting on the first grid point of `eppEnvW`. -/
def cProton100 : Candidate := mkCand (nucleusId 1 1) 100 (1 / 10) (10 ^ 30)

/-- The candidate `eppEnvW`'s `process` produces from `cProton100`: Lorentz factor
multiplied by `(1 - 1/5)` and the next step limited to `limit × lossLength`. -/
def cProton100out : Candidate :=
  { cProton100 with
      current := cProton100.current.setLorentzFactor (100 * (1 - 1 / 5)),
      nextStep := min ((10 : ℝ) ^ 30) (1 / 10 * (1 / 2)) }

/-- A pair-production table whose domain ends at Lorentz factor `10^8`. -/
def eppEnvC : EPPEnv :=
  { photonField := constPF, tabLorentzFactor := [10 ^ 6, 10 ^ 8], tabLossRate := [1, 1],
    tabSpectrum := [], haveElectrons := false, limit := 1 / 10, interactionTag := "EPP" }

/-- A proton candidate with Lorentz factor `10^10`, above the tabulated domain of
`eppEnvC`. -/
def cProtonHigh : Candidate := mkCand (nucleusId 1 1) (10 ^ 10) 1 (10 ^ 30)

/-- An electron candidate (inapplicable to both interaction modules). -/
def cElectron : Candidate := mkCand 11 (10 ^ 20) 1 (10 ^ 30)

/-- An advection field whose direction flips across the plane `x = 0`: the wind
(of speed `c`) seen at the start of a step differs from the wind seen after any
positive advance, so the embedded error estimate of the Boris-push integrator is
the same positive constant for *every* trial step. -/
def flipWind (p : Vector3) : Vector3 :=
  if 0 < p.x then ⟨0, -c_light, 0⟩ else ⟨0, c_light, 0⟩

/-- A `PropagationBP` configuration with a valid zero magnetic field, the
`flipWind` advection field, `tolerance = 1/2`, and `minStep = 0 < maxStep = 1`. -/
def bpEnvFlip : BPEnv :=
  { field := some fun _ _ => 0, advField := flipWind,
    tolerance := 1 / 2, minStep := 0, maxStep := 1, shockRadius := 0 }

/-- `bpEnvFlip` with zero advection (so the error estimate is 0) and
`minStep = 1/2`. -/
def bpEnvZero : BPEnv :=
  { field := some fun _ _ => 0, advField := fun _ => 0,
    tolerance := 1 / 2, minStep := 1 / 2, maxStep := 1, shockRadius := 0 }

/-- A charged candidate (proton) for the integrator, at the origin along x. -/
def cBP : Candidate := mkCand (nucleusId 1 1) 1 0 1

/-- A neutral candidate (photon) whose `previous` state differs from `current`. -/
def cNeutral : Candidate := { mkCand 22 5 1 (1 / 2) with previous := mkState 22 7 }

/-- What `bpEnvZero`'s `process` produces from `cNeutral`: rectilinear advance by
the clipped step, `previous` re-snapshotted to the old current state. -/
def cNeutralOut : Candidate :=
  { cNeutral with
      previous := cNeutral.current,
      current := { cNeutral.current with position := ⟨1 / 2, 0, 0⟩ },
      currentStep := 1 / 2, nextStep := 1 }

/-! ## Helper lemmas -/

theorem getD_replicate {α : Type} (a d : α) :
    ∀ (n i : ℕ), i < n → (List.replicate n a).getD i d = a := by
  intro n
  induction n with
  | zero => intro i h; omega
  | succ n ih =>
    intro i h
    cases i with
    | zero => rfl
    | succ i => exact ih i (by omega)

theorem selectIdx_nil (u : ℝ) : selectIdx [] u = 0 := rfl

theorem selectIdx_cons (r : ℝ) (rest : List ℝ) (u : ℝ) :
    selectIdx (r :: rest) u = if u > 0 then 1 + selectIdx rest (u - r) else 0 := rfl

theorem selectIdx_exhausts :
    ∀ (ratios : List ℝ) (u : ℝ), (∀ r ∈ ratios, 0 ≤ r) → ratios.sum < u →
      selectIdx ratios u = ratios.length := by
  intro ratios
  induction ratios with
  | nil => intro u _ _; rfl
  | cons r rest ih =>
    intro u hnn hsum
    have hsum' : r + rest.sum < u := by simpa [List.sum_cons] using hsum
    have hrest : 0 ≤ rest.sum := List.sum_nonneg fun x hx => hnn x (List.mem_cons_of_mem _ hx)
    have hr : 0 ≤ r := hnn r (List.mem_cons_self _ _)
    have hu : u > 0 := by linarith
    rw [selectIdx_cons, if_pos hu,
      ih (u - r) (fun x hx => hnn x (List.mem_cons_of_mem _ hx)) (by linarith)]
    simp [List.length_cons]
    omega

/-! ## C3 — channel selection by cumulative-threshold draw -/

/-- C3: the channel-selection loop subtracts successive tabulated branching ratios
(at the nearest Lorentz-factor bin) from the uniform draw until the remainder is
non-positive and selects the channel where that happens: for ratios `[0.3, 0.7]`
and draw `0.5` the selected index is 1; and whenever the draw exceeds the sum of
all ratios the loop exhausts the list and the last listed channel is selected. -/
theorem C3_channel_selection :
    (pdChosen [⟨1, List.replicate 251 (3/10)⟩, ⟨2, List.replicate 251 (7/10)⟩] 100 (1/2) = 1)
    ∧ ∀ (branches : List Branch) (l : ℕ) (u : ℝ),
        branches ≠ [] →
        (∀ b ∈ branches, 0 ≤ b.ratios.getD l 0) →
        ((branches.map fun b => b.ratios.getD l 0).sum < u) →
        pdChosen branches l u = branches.length - 1 := by
  constructor
  · have h3 : (List.replicate 251 (3/10 : ℝ)).getD 100 0 = 3/10 :=
      getD_replicate _ _ 251 100 (by omega)
    have h7 : (List.replicate 251 (7/10 : ℝ)).getD 100 0 = 7/10 :=
      getD_replicate _ _ 251 100 (by omega)
    simp only [pdChosen, pdSelect, List.map_cons, List.map_nil, h3, h7,
      selectIdx_cons, selectIdx_nil]
    norm_num
  · intro branches l u hne hnn hsum
    have : selectIdx (branches.map fun b => b.ratios.getD l 0) u
        = (branches.map fun b => b.ratios.getD l 0).length := by
      apply selectIdx_exhausts _ _ _ hsum
      intro r hr
      rcases List.mem_map.1 hr with ⟨b, hb, rfl⟩
      exact hnn b hb
    simp only [pdChosen, pdSelect, this, List.length_map]

/-- Witness for C3: a singleton branch list with ratio `0.3` in every bin and
draw `2 > 0.3` selects the last (only) channel, index 0. -/
theorem C3_channel_selection_witness :
    pdChosen [⟨1, List.replicate 251 (3/10)⟩] 100 2 = 0 := by
  have h := C3_channel_selection.2 [⟨1, List.replicate 251 (3/10)⟩] 100 2
    (List.cons_ne_nil _ _)
    (by
      intro b hb
      simp only [List.mem_singleton] at hb
      subst hb
      rw [getD_replicate _ _ 251 100 (by omega)]
      norm_num)
    (by
      simp only [List.map_cons, List.map_nil, List.sum_cons, List.sum_nil]
      rw [getD_replicate _ _ 251 100 (by omega)]
      norm_num)
  rw [h, List.length_singleton]

/-! ## C8 — integrator configuration guards -/

/-- C8 (amended): the configuration setters accept exactly tolerance ∈ [0,1]
(the source rejects `tol > 1 or tol < 0`, so 0 *is* accepted), `minStep ≥ 0` with
`minStep ≤ maxStep`, and `maxStep ≥ minStep`; every violating value yields the
fatal configuration error and the stored configuration is left unchanged (the
error is raised before any member assignment). -/
theorem C8_setter_guards (cfg : BPConfig) (t₁ t₂ mn₁ mn₂ mx₁ mx₂ : ℝ)
    (ht₁ : t₁ > 1 ∨ t₁ < 0) (ht₂l : 0 ≤ t₂) (ht₂r : t₂ ≤ 1)
    (hmn₁ : mn₁ < 0 ∨ mn₁ > cfg.maxStep) (hmn₂l : 0 ≤ mn₂) (hmn₂r : mn₂ ≤ cfg.maxStep)
    (hmx₁ : mx₁ < cfg.minStep) (hmx₂ : cfg.minStep ≤ mx₂) :
    setTolerance t₁ cfg = Except.error "PropagationBP: target error not in range 0-1"
    ∧ setTolerance t₂ cfg = Except.ok { cfg with tolerance := t₂ }
    ∧ (∃ e, setMinimumStep mn₁ cfg = Except.error e)
    ∧ setMinimumStep mn₂ cfg = Except.ok { cfg with minStep := mn₂ }
    ∧ setMaximumStep mx₁ cfg = Except.error "PropagationBP: maxStep < minStep"
    ∧ setMaximumStep mx₂ cfg = Except.ok { cfg with maxStep := mx₂ } := by
  refine ⟨?_, ?_, ?_, ?_, ?_, ?_⟩
  · simp [setTolerance, ht₁]
  · have : ¬(t₂ > 1 ∨ t₂ < 0) := by push_neg; constructor <;> linarith
    simp [setTolerance, this]
  · rcases hmn₁ with h | h
    · exact ⟨"PropagationBP: minStep < 0 ", by simp [setMinimumStep, h]⟩
    · by_cases h0 : mn₁ < 0
      · exact ⟨"PropagationBP: minStep < 0 ", by simp [setMinimumStep, h0]⟩
      · exact ⟨"PropagationBP: minStep > maxStep", by simp [setMinimumStep, h0, h]⟩
  · have h0 : ¬mn₂ < 0 := not_lt.2 hmn₂l
    have h1 : ¬mn₂ > cfg.maxStep := not_lt.2 hmn₂r
    simp [setMinimumStep, h0, h1]
  · simp [setMaximumStep, hmx₁]
  · have : ¬mx₂ < cfg.minStep := not_lt.2 hmx₂
    simp [setMaximumStep, this]

/-- Witness for C8: the setter guards applied to the configuration
`(0.42, 0, 1, 0)` with concrete accepted and rejected values. -/
theorem C8_setter_guards_witness :
    setTolerance 2 (⟨0.42, 0, 1, 0⟩ : BPConfig)
      = Except.error "PropagationBP: target error not in range 0-1"
    ∧ setTolerance (1/2) (⟨0.42, 0, 1, 0⟩ : BPConfig)
      = Except.ok (⟨1/2, 0, 1, 0⟩ : BPConfig) := by
  have h := C8_setter_guards (⟨0.42, 0, 1, 0⟩ : BPConfig) 2 (1/2) (-1) (1/2) (-1) 2
    (by norm_num) (by norm_num) (by norm_num)
    (by norm_num) (by norm_num) (by norm_num)
    (by norm_num) (by norm_num)
  exact ⟨h.1, h.2.1⟩

/-- Counterexample for C8: the claim demands that every tolerance outside `(0,1]`
be rejected, but the source's guard is `tol > 1 or tol < 0`, so the out-of-range
value 0 is accepted and stored. -/
theorem C8_tolerance_zero_accepted :
    setTolerance 0 (⟨0.42, 0, 1, 0⟩ : BPConfig) = Except.ok (⟨0, 0, 1, 0⟩ : BPConfig) := by
  norm_num [setTolerance]

/-! ## Interpolation lemmas -/

theorem chain'_head_le_getD :
    ∀ (l : List ℝ) (a : ℝ), List.Chain' (· < ·) (a :: l) →
      ∀ j, j < (a :: l).length → a ≤ (a :: l).getD j 0 := by
  intro l
  induction l with
  | nil =>
    intro a _ j hj
    have hj0 : j = 0 := by
      simp at hj
      exact hj
    subst hj0
    exact le_refl a
  | cons b l ih =>
    intro a hch j hj
    cases j with
    | zero => exact le_refl a
    | succ j =>
      have hab : a < b := (List.chain'_cons.1 hch).1
      have := ih b (List.chain'_cons.1 hch).2 j (by simpa using hj)
      calc a ≤ b := le_of_lt hab
        _ ≤ (b :: l).getD j 0 := this

theorem interpolate_grid :
    ∀ (X Y : List ℝ) (k : ℕ), List.Chain' (· < ·) X → k < X.length → X.length = Y.length →
      interpolate (X.getD k 0) X Y = Y.getD k 0 := by
  intro X
  induction X with
  | nil => intro Y k _ hk _; simp at hk
  | cons x0 X ih =>
    intro Y k hch hk hlen
    cases Y with
    | nil => simp at hlen
    | cons y0 ys =>
      cases X with
      | nil =>
        have hk0 : k = 0 := by simpa using hk
        subst hk0
        rfl
      | cons x1 xs =>
        cases k with
        | zero =>
          have h01 : x0 < x1 := (List.chain'_cons.1 hch).1
          show interpolate x0 (x0 :: x1 :: xs) (y0 :: ys) = y0
          rw [interpolate]
          rw [if_pos h01]
          simp
        | succ j =>
          have htail : List.Chain' (· < ·) (x1 :: xs) := (List.chain'_cons.1 hch).2
          have hx1le : x1 ≤ (x1 :: xs).getD j 0 :=
            chain'_head_le_getD xs x1 htail j (by simpa using hk)
          show interpolate ((x0 :: x1 :: xs).getD (j + 1) 0) (x0 :: x1 :: xs) (y0 :: ys)
              = (y0 :: ys).getD (j + 1) 0
          have hgd : (x0 :: x1 :: xs).getD (j + 1) 0 = (x1 :: xs).getD j 0 := rfl
          rw [hgd, interpolate, if_neg (not_lt.2 hx1le)]
          exact ih (y0 :: ys).tail j htail (by simpa using hk) (by simpa using hlen)

theorem interpolateEquidistant_grid (lo hi : ℝ) (Y : List ℝ) (k : ℕ)
    (hlo : lo < hi) (h2 : 2 ≤ Y.length) (hk : k < Y.length) :
    interpolateEquidistant (lo + (k : ℝ) * (hi - lo) / ((Y.length : ℝ) - 1)) lo hi Y
      = Y.getD k 0 := by
  have hne : hi - lo ≠ 0 := sub_ne_zero.2 (ne_of_gt hlo)
  have hn : ((Y.length : ℝ) - 1) ≠ 0 := by
    have h2' : (2 : ℝ) ≤ (Y.length : ℝ) := by exact_mod_cast h2
    intro h
    have := sub_eq_zero.1 h
    linarith
  have ht : (lo + (k : ℝ) * (hi - lo) / ((Y.length : ℝ) - 1) - lo) / (hi - lo)
      * ((Y.length : ℝ) - 1) = (k : ℝ) := by
    field_simp
    ring
  simp only [interpolateEquidistant]
  rw [ht, Int.floor_natCast, Int.toNat_natCast, sub_self, zero_mul, add_zero]

/-! ## C5 — inapplicable candidates are pure no-ops -/

theorem eppLossLength_inapplicable (env : EPPEnv) (id : ℤ) (lf z : ℝ)
    (h : chargeNumber id = 0 ∨ lf * (1 + z) < env.tabLorentzFactor.headD 0) :
    eppLossLength env id lf z = doubleMax := by
  simp only [eppLossLength]
  split_ifs with hZ hlow hup <;>
    first
    | rfl
    | (exfalso
       rcases h with h | h
       · exact hZ (by exact_mod_cast h)
       · exact hlow h)

/-- C5 (amended): for an inapplicable candidate — wrong species, a nuclide outside
the table or with no `(Z,N)` data, Lorentz factor below the tabulated domain (and,
for the photo-disintegration module, also at or above the upper bound), or
uncharged where charge is required — `process()` returns the candidate unchanged:
id, energy, position, direction, `nextStep` identical and no secondaries added. -/
theorem C5_inapplicable_noop (envP : PDEnv) (envE : EPPEnv) (cP cE : Candidate)
    (rsP rsE : List ℝ) (fuelP fuelE : ℕ)
    (hP : pdInapplicable envP cP) (hE : eppInapplicable envE cE) :
    pdProcess envP (fuelP + 1) cP rsP = some cP
    ∧ eppProcess envE fuelE cE rsE = some cE := by
  constructor
  · simp only [pdProcess, pdProcessLoop]
    split_ifs with h1 h2 h3 h4 h5 h6 <;>
      first
      | rfl
      | (exfalso
         rcases hP with h | h | h | h | h | h
         · rw [h] at h1
           exact Bool.false_ne_true h1
         · exact h2 (Or.inl h)
         · exact h2 (Or.inr h)
         · exact h3 h
         · exact h4 (Or.inl h)
         · exact h4 (Or.inr h))
  · simp only [eppProcess]
    split_ifs with h1 h2 h3 <;>
      first
      | rfl
      | (exfalso
         rcases hE with h | h | h
         · rw [h] at h1
           exact Bool.false_ne_true h1
         · refine h2 ?_
           rw [eppLossLength_inapplicable envE _ _ _ (Or.inl h), div_one]
         · refine h2 ?_
           rw [eppLossLength_inapplicable envE _ _ _ (Or.inr h.2), div_one])

theorem massNumber_nucleusId (a z : ℤ) (ha : 0 ≤ a) (ha' : a < 1000) :
    massNumber (nucleusId a z) = a := by
  unfold massNumber nucleusId
  omega

theorem chargeNumber_nucleusId (a z : ℤ) (ha : 0 ≤ a) (ha' : a < 1000)
    (hz : 0 ≤ z) (hz' : z < 1000) : chargeNumber (nucleusId a z) = z := by
  unfold chargeNumber nucleusId
  omega

theorem isNucleus_nucleusId (a z : ℤ) (ha : 0 ≤ a) (hz : 0 ≤ z) :
    isNucleus (nucleusId a z) = true := by
  unfold isNucleus nucleusId
  simp only [decide_eq_true_eq]
  omega

@[simp] theorem mkState_id (id : ℤ) (e : ℝ) : (mkState id e).id = id := rfl

@[simp] theorem mkState_energy (id : ℤ) (e : ℝ) : (mkState id e).energy = e := rfl

@[simp] theorem mkCand_current (id : ℤ) (e s n : ℝ) :
    (mkCand id e s n).current = mkState id e := rfl

@[simp] theorem mkCand_redshift (id : ℤ) (e s n : ℝ) : (mkCand id e s n).redshift = 0 := rfl

@[simp] theorem mkCand_currentStep (id : ℤ) (e s n : ℝ) :
    (mkCand id e s n).currentStep = s := rfl

@[simp] theorem mkCand_nextStep (id : ℤ) (e s n : ℝ) : (mkCand id e s n).nextStep = n := rfl

@[simp] theorem mkCand_secondaries (id : ℤ) (e s n : ℝ) :
    (mkCand id e s n).secondaries = [] := rfl

/-- The Lorentz factor under the normalized unit constants. -/
theorem lorentzFactor_eq (p : ParticleState) :
    p.lorentzFactor = p.energy / (massNumber p.id : ℝ) := by
  simp [ParticleState.lorentzFactor, nuclearMass, mass_proton, c_light]

theorem doubleMax_big (x : ℝ) (h : x ≤ 10 ^ 300) : ¬x ≥ doubleMax := by
  simp only [doubleMax]
  push_neg
  calc x ≤ 10 ^ 300 := h
    _ < 17976931348623157 * 10 ^ 292 := by norm_num

/-- Counterexample for C5: the claim counts "Lorentz factor outside the tabulated
domain" as inapplicable, but above the upper tabulated bound the pair-production
module is *not* a no-op — it applies the power-law-extrapolated loss, so the
energy strictly decreases. -/
theorem C5_epp_above_domain_changes_energy :
    cProtonHigh.current.energy = (10 : ℝ) ^ 10
    ∧ Option.map (fun c => c.current.energy) (eppProcess eppEnvC 1 cProtonHigh [])
      = some ((10 : ℝ) ^ 10 * (1 - (100 : ℝ) ^ (-0.6 : ℝ)))
    ∧ (10 : ℝ) ^ 10 * (1 - (100 : ℝ) ^ (-0.6 : ℝ)) ≠ (10 : ℝ) ^ 10 := by
  have hmass : massNumber (nucleusId 1 1) = 1 := by decide
  have hcharge : chargeNumber (nucleusId 1 1) = 1 := by decide
  have hlf : cProtonHigh.current.lorentzFactor = 10 ^ 10 := by
    rw [lorentzFactor_eq]
    simp [cProtonHigh, hmass]
  have hll : eppLossLength eppEnvC (nucleusId 1 1) (10 ^ 10) 0 = ((100 : ℝ) ^ (-0.6 : ℝ))⁻¹ := by
    simp only [eppLossLength, eppEnvC]
    rw [if_neg (by rw [hcharge]; norm_num)]
    rw [if_neg (by simp only [List.headD_cons]; norm_num)]
    rw [if_neg (by simp only [List.getLastD_cons, List.getLastD_nil]; norm_num)]
    simp only [List.getLastD_cons, List.getLastD_nil]
    rw [hcharge, show nuclearMass (nucleusId 1 1) = 1 by simp [nuclearMass, hmass, mass_proton]]
    simp only [constPF]
    norm_num [mass_proton]
  have hlosspos : (0 : ℝ) < (100 : ℝ) ^ (-0.6 : ℝ) := Real.rpow_pos_of_pos (by norm_num) _
  have hlossle : ((100 : ℝ) ^ (-0.6 : ℝ))⁻¹ ≤ 10 ^ 300 := by
    rw [← Real.rpow_neg (by norm_num : (0:ℝ) ≤ 100)]
    calc (100 : ℝ) ^ (-(-0.6 : ℝ)) ≤ (100 : ℝ) ^ (1 : ℝ) :=
          Real.rpow_le_rpow_of_exponent_le (by norm_num) (by norm_num)
      _ = 100 := Real.rpow_one _
      _ ≤ 10 ^ 300 := by norm_num
  refine ⟨rfl, ?_, ?_⟩
  · simp only [eppProcess]
    rw [if_neg (by simp [cProtonHigh, isNucleus_nucleusId 1 1 (by norm_num) (by norm_num)])]
    rw [show cProtonHigh.current.id = nucleusId 1 1 from rfl, hlf]
    rw [show cProtonHigh.redshift = 0 from rfl, hll, div_one]
    rw [if_neg (doubleMax_big _ hlossle)]
    rw [show eppEnvC.haveElectrons = false from rfl]
    simp only [Bool.false_eq_true, if_false, Option.map_some]
    simp only [Candidate.limitNextStep, ParticleState.setLorentzFactor]
    simp only [nuclearMass, mass_proton, c_light]
    rw [show cProtonHigh.currentStep = 1 from rfl]
    rw [show massNumber cProtonHigh.current.id = 1 from hmass]
    norm_num [inv_inv]
  · intro h
    have h10 : (0 : ℝ) < (10 : ℝ) ^ 10 := by norm_num
    nlinarith [hlosspos, h10]
/-! ## C6 — rate lookup: interpolation, extrapolation, zero-rate regions -/

theorem log10_pow10 (n : ℕ) : log10 ((10 : ℝ) ^ n) = n := by
  unfold log10
  rw [Real.logb_pow, Real.logb_self_eq_one (by norm_num)]
  ring

theorem pdLossLength_guard (env : PDEnv) (id : ℤ) (gamma z : ℝ)
    (h : isNucleus id = false ∨ chargeNumber id > 26
      ∨ massNumber id - chargeNumber id > 30
      ∨ (env.pdRate (chargeNumber id * 31 + (massNumber id - chargeNumber id))).length = 0
      ∨ log10 (gamma * (1 + z)) ≤ lgmin ∨ log10 (gamma * (1 + z)) ≥ lgmax) :
    pdLossLength env id gamma z = doubleMax := by
  simp only [pdLossLength]
  split_ifs with h1 h2 h3 h4 <;>
    first
    | rfl
    | (exfalso
       rcases h with h | h | h | h | h | h
       · rw [h] at h1
         exact Bool.false_ne_true h1
       · exact h2 (Or.inl h)
       · exact h2 (Or.inr h)
       · exact h3 h
       · exact h4 (Or.inl h)
       · exact h4 (Or.inr h))

/-- C6 (amended): rate lookup across the interaction modules — (i) the
general-grid interpolator reproduces the tabulated values exactly at grid points;
(ii) so does the equidistant interpolator used by photo-disintegration; (iii) the
pair-production loss length follows the `−0.6` power law above the upper tabulated
bound; (iv) below the lower bound or for an uncharged species the pair-production
loss length is infinite (`doubleMax`); (v) the photo-disintegration loss length is
infinite for untabulated nuclides, missing data, and *everywhere outside* the open
tabulated Lorentz-factor window — including at and above the upper bound, where no
power law is applied. -/
theorem C6_rate_lookup :
    (∀ (X RY : List ℝ) (k : ℕ), List.Chain' (· < ·) X → k < X.length → X.length = RY.length →
      interpolate (X.getD k 0) X RY = RY.getD k 0)
    ∧ (∀ (lo hi : ℝ) (RY : List ℝ) (k : ℕ), lo < hi → 2 ≤ RY.length → k < RY.length →
        interpolateEquidistant (lo + (k : ℝ) * (hi - lo) / ((RY.length : ℝ) - 1)) lo hi RY
          = RY.getD k 0)
    ∧ (∀ (env : EPPEnv) (id : ℤ) (lf z : ℝ), (chargeNumber id : ℝ) ≠ 0 →
        ¬lf * (1 + z) < env.tabLorentzFactor.headD 0 →
        env.tabLorentzFactor.getLastD 0 ≤ lf * (1 + z) →
        eppLossLength env id lf z
          = 1 / (env.tabLossRate.getLastD 0
              * (lf * (1 + z) / env.tabLorentzFactor.getLastD 0) ^ (-0.6 : ℝ)
              * (chargeNumber id : ℝ) ^ 2 / (nuclearMass id / mass_proton)
              * (1 + z) ^ 3 * env.photonField.redshiftScaling z))
    ∧ (∀ (env : EPPEnv) (id : ℤ) (lf z : ℝ),
        chargeNumber id = 0 ∨ lf * (1 + z) < env.tabLorentzFactor.headD 0 →
        eppLossLength env id lf z = doubleMax)
    ∧ (∀ (env : PDEnv) (id : ℤ) (gamma z : ℝ),
        isNucleus id = false ∨ chargeNumber id > 26
          ∨ massNumber id - chargeNumber id > 30
          ∨ (env.pdRate (chargeNumber id * 31 + (massNumber id - chargeNumber id))).length = 0
          ∨ log10 (gamma * (1 + z)) ≤ lgmin ∨ log10 (gamma * (1 + z)) ≥ lgmax →
        pdLossLength env id gamma z = doubleMax) := by
  refine ⟨interpolate_grid, ?_, ?_, ?_, ?_⟩
  · intro lo hi RY k hlo h2 hk
    exact interpolateEquidistant_grid lo hi RY k hlo h2 hk
  · intro env id lf z hZ hlow hup
    simp only [eppLossLength]
    rw [if_neg hZ, if_neg hlow, if_neg (not_lt.2 hup)]
  · intro env id lf z h
    exact eppLossLength_inapplicable env id lf z h
  · intro env id gamma z h
    exact pdLossLength_guard env id gamma z h

/-- Witness for C6: concrete instantiations of all five parts — grid-point hits on
two-point tables, the proton power law above `10^8`, an uncharged id, and a
Lorentz factor above the photo-disintegration window. -/
theorem C6_rate_lookup_witness :
    interpolate 2 [1, 2] [5, 6] = 6
    ∧ interpolateEquidistant (0 + 1 * (1 - 0) / (2 - 1)) 0 1 [5, 6] = 6
    ∧ eppLossLength eppEnvC (nucleusId 1 1) (10 ^ 10) 0
      = 1 / (1 * ((10 : ℝ) ^ 10 * (1 + 0) / 10 ^ 8) ^ (-0.6 : ℝ)
          * (1 : ℝ) ^ 2 / (1 / 1) * (1 + 0) ^ 3 * 1)
    ∧ eppLossLength eppEnvC 22 (10 ^ 10) 0 = doubleMax
    ∧ pdLossLength pdEnvC (nucleusId 4 2) (10 ^ 15) 0 = doubleMax := by
  have hm : massNumber (nucleusId 1 1) = 1 := by decide
  have hc : chargeNumber (nucleusId 1 1) = 1 := by decide
  refine ⟨?_, ?_, ?_, ?_, ?_⟩
  · have h := C6_rate_lookup.1 [1, 2] [5, 6] 1
      (by norm_num [List.chain'_cons]) (by norm_num) (by norm_num)
    simpa using h
  · have h := C6_rate_lookup.2.1 0 1 [5, 6] 1 (by norm_num) (by norm_num) (by norm_num)
    simpa using h
  · have h := C6_rate_lookup.2.2.1 eppEnvC (nucleusId 1 1) (10 ^ 10) 0
      (by rw [hc]; norm_num)
      (by simp only [eppEnvC, List.headD_cons]; norm_num)
      (by simp only [eppEnvC, List.getLastD_cons, List.getLastD_nil]; norm_num)
    rw [h]
    simp only [eppEnvC, constPF, List.getLastD_cons, List.getLastD_nil]
    rw [hc, show nuclearMass (nucleusId 1 1) = 1 by simp [nuclearMass, hm, mass_proton]]
    norm_num [mass_proton]
  · exact C6_rate_lookup.2.2.2.1 eppEnvC 22 (10 ^ 10) 0 (Or.inl (by decide))
  · exact C6_rate_lookup.2.2.2.2 pdEnvC (nucleusId 4 2) (10 ^ 15) 0
      (Or.inr (Or.inr (Or.inr (Or.inr (Or.inr (by
        rw [show (10 : ℝ) ^ 15 * (1 + 0) = 10 ^ 15 by norm_num, log10_pow10 15]
        norm_num [lgmax]))))))

/-- Counterexample for C6: the claim promises power-law extrapolation above the
upper tabulated bound for every module's rate lookup, but the
photo-disintegration loss length is the infinite sentinel there (the power law
would give a small finite loss length) even with a positive tabulated rate. -/
theorem C6_pd_no_power_law_above_bound :
    pdLossLength pdEnvC (nucleusId 4 2) (10 ^ 15) 0 = doubleMax
    ∧ (1 : ℝ) / (1 * ((10 : ℝ) ^ 15 * (1 + 0) / (10 : ℝ) ^ 14) ^ (-0.6 : ℝ)) < doubleMax := by
  constructor
  · exact pdLossLength_guard pdEnvC (nucleusId 4 2) (10 ^ 15) 0
      (Or.inr (Or.inr (Or.inr (Or.inr (Or.inr (by
        rw [show (10 : ℝ) ^ 15 * (1 + 0) = 10 ^ 15 by norm_num, log10_pow10 15]
        norm_num [lgmax]))))))
  · have h10 : ((10 : ℝ) ^ 15 * (1 + 0) / (10 : ℝ) ^ 14) = 10 := by norm_num
    rw [h10, one_mul, one_div, ← Real.rpow_neg (by norm_num : (0 : ℝ) ≤ 10)]
    have hle : (10 : ℝ) ^ (-(-0.6 : ℝ)) ≤ (10 : ℝ) ^ (1 : ℝ) :=
      Real.rpow_le_rpow_of_exponent_le (by norm_num) (by norm_num)
    rw [Real.rpow_one] at hle
    calc (10 : ℝ) ^ (-(-0.6 : ℝ)) ≤ 10 := hle
      _ < doubleMax := by norm_num [doubleMax]

/-- Witness for C5: an electron handed to both nucleus-only modules is left
untouched. -/
theorem C5_inapplicable_noop_witness :
    pdProcess pdEnvC 1 cElectron [] = some cElectron
    ∧ eppProcess eppEnvW 1 cElectron [] = some cElectron := by
  have h := C5_inapplicable_noop pdEnvC eppEnvW cElectron cElectron [] [] 0 1
    (Or.inl (by decide)) (Or.inl (by decide))
  exact h

/-! ## C4 — continuous pair-production loss -/

theorem lorentzFactor_setLorentzFactor (p : ParticleState) (v : ℝ)
    (hm : massNumber p.id ≠ 0) : (p.setLorentzFactor v).lorentzFactor = v := by
  have hm' : (massNumber p.id : ℝ) ≠ 0 := Int.cast_ne_zero.2 hm
  simp only [ParticleState.setLorentzFactor, ParticleState.lorentzFactor,
    nuclearMass, mass_proton, c_light]
  field_simp

theorem setLorentzFactor_energy_mul (p : ParticleState) (w : ℝ)
    (hm : massNumber p.id ≠ 0) :
    (p.setLorentzFactor (p.lorentzFactor * w)).energy = p.energy * w := by
  have hm' : (massNumber p.id : ℝ) ≠ 0 := Int.cast_ne_zero.2 hm
  simp only [ParticleState.setLorentzFactor, ParticleState.lorentzFactor,
    nuclearMass, mass_proton, c_light]
  field_simp

/-- Whenever `ElectronPairProduction::process` runs to completion on an applicable
nucleus, the updated current state is exactly the old one with the Lorentz factor
multiplied by `(1 - loss)`, `loss = (currentStep/(1+z))/lossLength`. -/
theorem eppProcess_some_current (env : EPPEnv) (fuel : ℕ) (c : Candidate)
    (rs : List ℝ) (c' : Candidate)
    (hn : isNucleus c.current.id = true)
    (hll : eppLossLength env c.current.id c.current.lorentzFactor c.redshift < doubleMax)
    (hp : eppProcess env fuel c rs = some c') :
    c'.current = c.current.setLorentzFactor (c.current.lorentzFactor
      * (1 - (c.currentStep / (1 + c.redshift))
        / eppLossLength env c.current.id c.current.lorentzFactor c.redshift)) := by
  simp only [eppProcess] at hp
  rw [if_neg (not_not_intro hn)] at hp
  rw [div_one] at hp
  rw [if_neg (not_le.2 hll)] at hp
  cases hE : env.haveElectrons with
  | false =>
    rw [hE] at hp
    simp only [Bool.false_eq_true, if_false] at hp
    have := Option.some.inj hp
    rw [← this]
    rfl
  | true =>
    rw [hE] at hp
    simp only [if_true] at hp
    cases hdp : eppDrawPairs env (eppSpectrumIdx c.current.lorentzFactor) fuel
        (c.current.energy * (c.currentStep / (1 + c.redshift)
          / eppLossLength env c.current.id c.current.lorentzFactor c.redshift))
        c.previous.position c.current.position rs with
    | none =>
      rw [hdp] at hp
      simp at hp
    | some v =>
      rw [hdp] at hp
      obtain ⟨secs, rsOut⟩ := v
      simp only [] at hp
      have := Option.some.inj hp
      rw [← this]
      rfl

/-- The loss length at an interior tabulated grid point, for a singly charged
mass-1 nucleus at redshift 0 with unit redshift scaling: the inverse tabulated
rate. -/
theorem eppLossLength_grid (env : EPPEnv) (id : ℤ) (lf : ℝ) (k : ℕ)
    (hZ1 : chargeNumber id = 1) (hm1 : massNumber id = 1)
    (hch : List.Chain' (· < ·) env.tabLorentzFactor)
    (hk : k < env.tabLorentzFactor.length)
    (hlen : env.tabLorentzFactor.length = env.tabLossRate.length)
    (heq : lf = env.tabLorentzFactor.getD k 0)
    (hup : env.tabLorentzFactor.getD k 0 < env.tabLorentzFactor.getLastD 0)
    (hrs : env.photonField.redshiftScaling 0 = 1) :
    eppLossLength env id lf 0 = 1 / env.tabLossRate.getD k 0 := by
  have hlow : env.tabLorentzFactor.headD 0 ≤ env.tabLorentzFactor.getD k 0 := by
    cases hXl : env.tabLorentzFactor with
    | nil => rw [hXl] at hk; simp at hk
    | cons x0 xs =>
      rw [hXl] at hch hk
      simpa using chain'_head_le_getD xs x0 hch k hk
  have hmul : lf * (1 + (0 : ℝ)) = env.tabLorentzFactor.getD k 0 := by
    rw [heq]; ring
  simp only [eppLossLength]
  rw [if_neg (by rw [hZ1]; norm_num)]
  rw [hmul]
  rw [if_neg (not_lt.2 hlow)]
  rw [if_pos hup]
  rw [interpolate_grid env.tabLorentzFactor env.tabLossRate k hch hk hlen]
  rw [hZ1, show nuclearMass id = 1 by simp [nuclearMass, hm1, mass_proton], hrs]
  norm_num [mass_proton]

/-- C4: (i) for every applicable nucleus, one call of the continuous-loss module
multiplies the Lorentz factor (equivalently the energy) by exactly
`(1 - loss)` with `loss = (currentStep/(1+z))/lossLength`; (ii) for a proton at a
tabulated (Lorentz-factor, loss-rate) grid point at redshift 0 the resulting
energy loss equals `energy × rate × step` *exactly* (hence within `1e-12`
relative error). -/
theorem C4_continuous_loss :
    (∀ (env : EPPEnv) (fuel : ℕ) (c : Candidate) (rs : List ℝ) (c' : Candidate),
      isNucleus c.current.id = true →
      massNumber c.current.id ≠ 0 →
      eppLossLength env c.current.id c.current.lorentzFactor c.redshift < doubleMax →
      eppProcess env fuel c rs = some c' →
      c'.current.lorentzFactor = c.current.lorentzFactor
        * (1 - (c.currentStep / (1 + c.redshift))
          / eppLossLength env c.current.id c.current.lorentzFactor c.redshift)
      ∧ c'.current.energy = c.current.energy
        * (1 - (c.currentStep / (1 + c.redshift))
          / eppLossLength env c.current.id c.current.lorentzFactor c.redshift))
    ∧ (∀ (env : EPPEnv) (fuel : ℕ) (c : Candidate) (rs : List ℝ) (c' : Candidate) (k : ℕ),
        isNucleus c.current.id = true →
        chargeNumber c.current.id = 1 →
        massNumber c.current.id = 1 →
        c.redshift = 0 →
        List.Chain' (· < ·) env.tabLorentzFactor →
        k < env.tabLorentzFactor.length →
        env.tabLorentzFactor.length = env.tabLossRate.length →
        c.current.lorentzFactor = env.tabLorentzFactor.getD k 0 →
        env.tabLorentzFactor.getD k 0 < env.tabLorentzFactor.getLastD 0 →
        env.photonField.redshiftScaling 0 = 1 →
        0 < env.tabLossRate.getD k 0 →
        1 / env.tabLossRate.getD k 0 < doubleMax →
        eppProcess env fuel c rs = some c' →
        c.current.energy - c'.current.energy
          = c.current.energy * env.tabLossRate.getD k 0 * c.currentStep) := by
  constructor
  · intro env fuel c rs c' hn hm hll hp
    have hcur := eppProcess_some_current env fuel c rs c' hn hll hp
    constructor
    · rw [hcur]
      exact lorentzFactor_setLorentzFactor _ _ hm
    · rw [hcur]
      exact setLorentzFactor_energy_mul _ _ hm
  · intro env fuel c rs c' k hn hZ1 hm1 hz hch hk hlen heq hup hrs hY hYmax hp
    have hLL : eppLossLength env c.current.id c.current.lorentzFactor c.redshift
        = 1 / env.tabLossRate.getD k 0 := by
      rw [hz]
      exact eppLossLength_grid env c.current.id c.current.lorentzFactor k hZ1 hm1
        hch hk hlen heq hup hrs
    have hll : eppLossLength env c.current.id c.current.lorentzFactor c.redshift
        < doubleMax := by rw [hLL]; exact hYmax
    have hcur := eppProcess_some_current env fuel c rs c' hn hll hp
    have hY' : env.tabLossRate.getD k 0 ≠ 0 := ne_of_gt hY
    have hE' : c'.current.energy = c.current.energy
        * (1 - (c.currentStep / (1 + c.redshift))
          / eppLossLength env c.current.id c.current.lorentzFactor c.redshift) := by
      rw [hcur]
      exact setLorentzFactor_energy_mul _ _ (by rw [hm1]; norm_num)
    rw [hE', hLL, hz]
    field_simp
    ring

/-- Witness for C4: the two-point table `eppEnvW` and a proton on its first grid
point — the Lorentz factor is multiplied by `(1 − loss)` and the energy loss is
exactly `energy × rate × step`. -/
theorem C4_continuous_loss_witness :
    cProton100.current.energy - cProton100out.current.energy
      = cProton100.current.energy * eppEnvW.tabLossRate.getD 0 0 * cProton100.currentStep
    ∧ cProton100out.current.lorentzFactor = cProton100.current.lorentzFactor
      * (1 - (cProton100.currentStep / (1 + cProton100.redshift))
        / eppLossLength eppEnvW cProton100.current.id cProton100.current.lorentzFactor
            cProton100.redshift) := by
  have hm : massNumber (nucleusId 1 1) = 1 := by decide
  have hc : chargeNumber (nucleusId 1 1) = 1 := by decide
  have hlf : cProton100.current.lorentzFactor = 100 := by
    rw [lorentzFactor_eq]
    simp [cProton100, hm]
  have hLL : eppLossLength eppEnvW (nucleusId 1 1) 100 0 = 1 / 2 := by
    have h := eppLossLength_grid eppEnvW (nucleusId 1 1) 100 0 hc hm
      (by norm_num [eppEnvW, List.chain'_cons])
      (by norm_num [eppEnvW])
      (by norm_num [eppEnvW])
      (by norm_num [eppEnvW])
      (by norm_num [eppEnvW, List.getLastD_cons, List.getLastD_nil])
      (by norm_num [eppEnvW, constPF])
    rw [h]
    norm_num [eppEnvW]
  have hp : eppProcess eppEnvW 1 cProton100 [] = some cProton100out := by
    simp only [eppProcess]
    rw [if_neg (not_not_intro (by decide : isNucleus cProton100.current.id = true))]
    rw [show cProton100.current.id = nucleusId 1 1 from rfl, hlf,
      show cProton100.redshift = 0 from rfl, hLL, div_one]
    rw [if_neg (by norm_num [doubleMax])]
    rw [show eppEnvW.haveElectrons = false from rfl]
    simp only [Bool.false_eq_true, if_false, Option.some.injEq]
    show Candidate.limitNextStep _ _ = cProton100out
    simp only [Candidate.limitNextStep, cProton100out, cProton100, eppEnvW]
    norm_num [inf_eq_right]
  have h2 := C4_continuous_loss.2 eppEnvW 1 cProton100 [] cProton100out 0
    (by decide) hc hm rfl
    (by norm_num [eppEnvW, List.chain'_cons])
    (by norm_num [eppEnvW])
    (by norm_num [eppEnvW])
    (by rw [hlf]; norm_num [eppEnvW])
    (by norm_num [eppEnvW, List.getLastD_cons, List.getLastD_nil])
    (by norm_num [eppEnvW, constPF])
    (by norm_num [eppEnvW])
    (by norm_num [eppEnvW, doubleMax])
    hp
  have h1 := (C4_continuous_loss.1 eppEnvW 1 cProton100 [] cProton100out
    (by decide) (by rw [show cProton100.current.id = nucleusId 1 1 from rfl, hm]; norm_num)
    (by rw [show cProton100.current.id = nucleusId 1 1 from rfl,
          show cProton100.redshift = 0 from rfl, hlf, hLL]
        norm_num [doubleMax])
    hp).1
  exact ⟨h2, h1⟩

/-! ## C2 — free-path draw and step limiting -/

theorem interpolateEquidistant_replicate (x lo hi : ℝ) (n : ℕ) (a : ℝ)
    (h : (⌊(x - lo) / (hi - lo) * ((n : ℝ) - 1)⌋).toNat + 1 < n) :
    interpolateEquidistant x lo hi (List.replicate n a) = a := by
  simp only [interpolateEquidistant, List.length_replicate]
  rw [getD_replicate a 0 n _ (by omega), getD_replicate a 0 n _ (by omega)]
  ring

theorem cHe4_lf : cHe4.current.lorentzFactor = 10 ^ 8 := by
  rw [lorentzFactor_eq, show massNumber cHe4.current.id = 4 from by decide,
    show cHe4.current.energy = 4 * 10 ^ 8 from rfl]
  norm_num

theorem cHe4_lg : log10 (cHe4.current.lorentzFactor * (1 + cHe4.redshift)) = 8 := by
  rw [cHe4_lf, show cHe4.redshift = 0 from rfl]
  rw [show (10 : ℝ) ^ 8 * (1 + 0) = 10 ^ 8 by norm_num]
  exact log10_pow10 8

theorem pdRate_64 : pdEnvC.pdRate 64 = List.replicate 251 1 := by
  show (if (64 : ℤ) = 64 then List.replicate 251 (1 : ℝ) else []) = List.replicate 251 1
  rw [if_pos rfl]

theorem pdBranch_64 :
    pdEnvC.pdBranch 64 = [⟨100000, List.replicate 251 1⟩] := by
  show (if (64 : ℤ) = 64 then [(⟨100000, List.replicate 251 1⟩ : Branch)] else [])
      = [(⟨100000, List.replicate 251 1⟩ : Branch)]
  rw [if_pos rfl]

theorem cround_l8 :
    (cround (((8 : ℝ) - lgmin) / (lgmax - lgmin) * ((nlg : ℝ) - 1))).toNat = 100 := by
  rw [show ((8 : ℝ) - lgmin) / (lgmax - lgmin) * ((nlg : ℝ) - 1) = ((100 : ℤ) : ℝ) by
    norm_num [lgmin, lgmax, nlg]]
  simp only [cround, round_intCast]
  rfl

theorem floor100 : (⌊((8 : ℝ) - lgmin) / (lgmax - lgmin) * (((251 : ℕ) : ℝ) - 1)⌋) = 100 := by
  rw [show ((8 : ℝ) - lgmin) / (lgmax - lgmin) * (((251 : ℕ) : ℝ) - 1) = ((100 : ℤ) : ℝ) by
    norm_num [lgmin, lgmax]]
  exact Int.floor_intCast 100

theorem pdRateOf_cHe4 : pdRateOf pdEnvC cHe4 = 1 := by
  simp only [pdRateOf]
  rw [show chargeNumber cHe4.current.id = 2 from by decide,
    show massNumber cHe4.current.id = 4 from by decide]
  rw [show (2 : ℤ) * 31 + (4 - 2) = 64 by norm_num]
  rw [cHe4_lg, pdRate_64]
  rw [interpolateEquidistant_replicate 8 lgmin lgmax 251 1 (by rw [floor100]; decide),
    show cHe4.redshift = 0 from rfl]
  show 1 * (1 + 0) ^ 2 * constPF.redshiftScaling 0 * constPF.radialScaling _ = 1
  show 1 * (1 + 0) ^ 2 * 1 * 1 = 1
  norm_num

/-- C2 (amended): for an applicable nucleus, whenever the sampled free path
`d = −ln(U)/rate` exceeds the remaining step, no interaction fires — the
candidate is returned with only `nextStep` limited to at most `limit/rate`; the
current step is unrestricted (may be zero or negative) because the loop body runs
at least once; and when additionally `limit/rate` is below the pre-set sentinel
`nextStep`, the call leaves `nextStep` strictly smaller (and `≤ limit/rate`,
finite).  (The original claim's final clause — that *every* applicable call
strictly reduces a sentinel `nextStep` — fails when an interaction fires and
consumes the whole step; see the counterexample.) -/
theorem C2_no_fire_limits_step (env : PDEnv) (c : Candidate) (u : ℝ) (rest : List ℝ)
    (fuel : ℕ)
    (hn : isNucleus c.current.id = true)
    (hZ : ¬chargeNumber c.current.id > 26)
    (hN : ¬massNumber c.current.id - chargeNumber c.current.id > 30)
    (hdata : ¬(env.pdRate (chargeNumber c.current.id * 31
      + (massNumber c.current.id - chargeNumber c.current.id))).length = 0)
    (hlg1 : ¬log10 (c.current.lorentzFactor * (1 + c.redshift)) ≤ lgmin)
    (hlg2 : ¬log10 (c.current.lorentzFactor * (1 + c.redshift)) ≥ lgmax)
    (hfire : c.currentStep < -Real.log u / pdRateOf env c) :
    pdProcess env (fuel + 1) c (u :: rest)
      = some (c.limitNextStep (env.limit / pdRateOf env c))
    ∧ (c.limitNextStep (env.limit / pdRateOf env c)).nextStep ≤ env.limit / pdRateOf env c
    ∧ (env.limit / pdRateOf env c < c.nextStep →
        (c.limitNextStep (env.limit / pdRateOf env c)).nextStep < c.nextStep) := by
  refine ⟨?_, min_le_right _ _, ?_⟩
  · simp only [pdProcess, pdProcessLoop]
    rw [if_neg (not_not_intro hn), if_neg (not_or.2 ⟨hZ, hN⟩), if_neg hdata,
      if_neg (not_or.2 ⟨hlg1, hlg2⟩)]
    simp only [randTake]
    rw [if_pos hfire]
  · intro hlt
    simp only [Candidate.limitNextStep]
    rw [min_eq_right (le_of_lt hlt)]
    exact hlt

/-- Witness for C2: `cHe4` under `pdEnvC` with draw `exp(−10)` (free path 10 >
step 1): no interaction, `nextStep` drops from the sentinel `10^30` to at most
`limit/rate = 1/10`. -/
theorem C2_no_fire_limits_step_witness :
    pdProcess pdEnvC 1 cHe4 [Real.exp (-10)]
      = some (cHe4.limitNextStep (pdEnvC.limit / pdRateOf pdEnvC cHe4))
    ∧ (cHe4.limitNextStep (pdEnvC.limit / pdRateOf pdEnvC cHe4)).nextStep
      < cHe4.nextStep := by
  have h := C2_no_fire_limits_step pdEnvC cHe4 (Real.exp (-10)) [] 0
    (by decide)
    (by rw [show chargeNumber cHe4.current.id = 2 from by decide]; norm_num)
    (by rw [show chargeNumber cHe4.current.id = 2 from by decide,
          show massNumber cHe4.current.id = 4 from by decide]
        norm_num)
    (by rw [show chargeNumber cHe4.current.id = 2 from by decide,
          show massNumber cHe4.current.id = 4 from by decide,
          show (2 : ℤ) * 31 + (4 - 2) = 64 by norm_num, pdRate_64,
          List.length_replicate]
        norm_num)
    (by rw [cHe4_lg]; norm_num [lgmin])
    (by rw [cHe4_lg]; norm_num [lgmax])
    (by rw [pdRateOf_cHe4, Real.log_exp, show cHe4.currentStep = 1 from rfl]
        norm_num)
  refine ⟨h.1, h.2.2 ?_⟩
  rw [pdRateOf_cHe4, show pdEnvC.limit = 1 / 10 from rfl,
    show cHe4.nextStep = 10 ^ 30 from rfl]
  norm_num

theorem addSecondaries_zero (c : Candidate) (id : ℤ) (e : ℝ) (pos : Vector3)
    (tag : String) : c.addSecondaries 0 id e pos tag = c := rfl

theorem addSecondaries_one (c : Candidate) (id : ℤ) (e : ℝ) (pos : Vector3)
    (tag : String) : c.addSecondaries 1 id e pos tag = c.addSecondary id e pos 1 tag := rfl

theorem Vector3_add (a b : Vector3) : a + b = ⟨a.x + b.x, a.y + b.y, a.z + b.z⟩ := rfl

theorem Vector3_sub (a b : Vector3) : a - b = ⟨a.x - b.x, a.y - b.y, a.z - b.z⟩ := rfl

theorem Vector3_smul (a : Vector3) (r : ℝ) : a * r = ⟨a.x * r, a.y * r, a.z * r⟩ := rfl

theorem pdSelect_cHe4 : pdSelect (pdEnvC.pdBranch 64) 100 (1 / 2) = 1 := by
  rw [pdBranch_64]
  simp only [pdSelect, List.map_cons, List.map_nil]
  rw [getD_replicate 1 0 251 100 (by omega)]
  rw [selectIdx_cons, if_pos (by norm_num : (1 : ℝ) / 2 > 0), selectIdx_nil]

theorem performInteraction_cHe4 :
    performInteraction pdEnvC cHe4 100000 [1 / 2] = (cHe4out, []) := by
  simp only [performInteraction]
  rw [show digit 100000 100000 = 1 from by decide,
    show digit 100000 10000 = 0 from by decide,
    show digit 100000 1000 = 0 from by decide,
    show digit 100000 100 = 0 from by decide,
    show digit 100000 10 = 0 from by decide,
    show digit 100000 1 = 0 from by decide]
  simp only [randTake]
  rw [show massNumber cHe4.current.id = 4 from by decide,
    show chargeNumber cHe4.current.id = 2 from by decide]
  rw [addSecondaries_one, addSecondaries_zero, addSecondaries_zero, addSecondaries_zero,
    addSecondaries_zero, addSecondaries_zero]
  rw [if_pos (show ¬(pdEnvC.havePhotons = true) from by decide)]
  simp only [Candidate.addSecondary, randomInterpolatedPosition, Vector3_add, Vector3_sub,
    Vector3_smul, cHe4out, cHe4, mkCand, mkState, Prod.mk.injEq]
  norm_num
  rfl

/-- Counterexample for C2: an applicable `cHe4` with sentinel `nextStep = 10^30`
and free-path draw `exp(−1)` (free path = step = 1): the interaction fires,
consumes the whole step, and `process` returns with `nextStep` *unchanged* — not
strictly smaller as the claim's final clause demands. -/
theorem C2_fire_leaves_sentinel :
    pdProcess pdEnvC 2 cHe4 [Real.exp (-1), 1 / 2, 1 / 2] = some cHe4out
    ∧ cHe4out.nextStep = cHe4.nextStep
    ∧ cHe4.nextStep = 10 ^ 30 := by
  refine ⟨?_, rfl, rfl⟩
  simp only [pdProcess, pdProcessLoop]
  simp only [randTake]
  rw [show chargeNumber cHe4.current.id = 2 from by decide,
    show massNumber cHe4.current.id = 4 from by decide,
    show (2 : ℤ) * 31 + (4 - 2) = 64 by norm_num,
    cHe4_lg, pdRateOf_cHe4, Real.log_exp,
    show cHe4.currentStep = 1 from rfl]
  rw [if_neg (not_not_intro (by decide : isNucleus cHe4.current.id = true))]
  rw [if_neg (by norm_num : ¬((2 : ℤ) > 26 ∨ (4 : ℤ) - 2 > 30))]
  rw [if_neg (by rw [pdRate_64, List.length_replicate]; norm_num)]
  rw [if_neg (by norm_num [lgmin, lgmax] : ¬((8 : ℝ) ≤ lgmin ∨ (8 : ℝ) ≥ lgmax))]
  rw [if_neg (by norm_num : ¬((1 : ℝ) < - -1 / 1))]
  rw [if_neg (by norm_num : ¬((1 : ℝ) - - -1 / 1 > 0))]
  rw [cround_l8, pdSelect_cHe4, pdBranch_64]
  rw [show ([(⟨100000, List.replicate 251 1⟩ : Branch)].getD (1 - 1) ⟨0, []⟩).channel
      = 100000 from rfl]
  rw [performInteraction_cHe4]

/-! ## C1 — conservation across photo-disintegration -/

theorem addSecondaries_eq :
    ∀ (n : ℕ) (c : Candidate) (id : ℤ) (e : ℝ) (pos : Vector3) (tag : String),
      c.addSecondaries n id e pos tag
        = { c with secondaries := c.secondaries ++ List.replicate n ⟨id, e, pos, 1, tag⟩ } := by
  intro n
  induction n with
  | zero =>
    intro c id e pos tag
    simp [Candidate.addSecondaries]
  | succ n ih =>
    intro c id e pos tag
    show (c.addSecondary id e pos 1 tag).addSecondaries n id e pos tag = _
    rw [ih]
    simp [Candidate.addSecondary, List.replicate_succ]

theorem photonLoop_spec (tag : String) (l : ℕ) (lf : ℝ) (pos : Vector3) :
    ∀ (lines : List PhotonEmission) (c : Candidate) (rs : List ℝ),
      ∃ ph : List Secondary,
        (photonLoop tag l lf pos lines (c, rs)).1
          = { c with secondaries := c.secondaries ++ ph }
        ∧ ∀ s ∈ ph, s.id = 22 := by
  intro lines
  induction lines with
  | nil =>
    intro c rs
    exact ⟨[], by simp [photonLoop], by simp⟩
  | cons em rest ih =>
    intro c rs
    simp only [photonLoop]
    by_cases hacc : (randTake rs).1 > em.emissionProbability.getD l 0
    · rw [if_pos hacc]
      exact ih c (randTake rs).2
    · rw [if_neg hacc]
      obtain ⟨ph, hspec, hid⟩ := ih
        (c.addSecondary 22 (em.energy * lf * (1 - (2 * (randTake (randTake rs).2).1 - 1)))
          pos 1 tag)
        (randTake (randTake rs).2).2
      refine ⟨⟨22, em.energy * lf * (1 - (2 * (randTake (randTake rs).2).1 - 1)),
          pos, 1, tag⟩ :: ph, ?_, ?_⟩
      · rw [hspec]
        simp [Candidate.addSecondary]
      · intro s hs
        rcases List.mem_cons.1 hs with h | h
        · rw [h]
        · exact hid s h

theorem secBaryonSum_append (l1 l2 : List Secondary) :
    secBaryonSum (l1 ++ l2) = secBaryonSum l1 + secBaryonSum l2 := by
  simp [secBaryonSum]

theorem secBaryonSum_replicate (n : ℕ) (s : Secondary) :
    secBaryonSum (List.replicate n s) = n * baryonNumber s.id := by
  simp [secBaryonSum, List.map_replicate, List.sum_replicate, nsmul_eq_mul]

theorem secBaryonSum_photons (ph : List Secondary) (h : ∀ s ∈ ph, s.id = 22) :
    secBaryonSum ph = 0 := by
  apply List.sum_eq_zero
  intro x hx
  rcases List.mem_map.1 hx with ⟨s, hs, rfl⟩
  rw [h s hs]
  decide

theorem secChargeSum_append (l1 l2 : List Secondary) :
    secChargeSum (l1 ++ l2) = secChargeSum l1 + secChargeSum l2 := by
  simp [secChargeSum]

theorem secChargeSum_replicate (n : ℕ) (s : Secondary) :
    secChargeSum (List.replicate n s) = n * nucChargeNumber s.id := by
  simp [secChargeSum, List.map_replicate, List.sum_replicate, nsmul_eq_mul]

theorem secChargeSum_photons (ph : List Secondary) (h : ∀ s ∈ ph, s.id = 22) :
    secChargeSum ph = 0 := by
  apply List.sum_eq_zero
  intro x hx
  rcases List.mem_map.1 hx with ⟨s, hs, rfl⟩
  rw [h s hs]
  decide

theorem secFragmentEnergySum_append (l1 l2 : List Secondary) :
    secFragmentEnergySum (l1 ++ l2)
      = secFragmentEnergySum l1 + secFragmentEnergySum l2 := by
  simp [secFragmentEnergySum, List.filter_append]

theorem secFragmentEnergySum_replicate (n : ℕ) (s : Secondary) (h : s.id ≠ 22) :
    secFragmentEnergySum (List.replicate n s) = n * s.energy := by
  induction n with
  | zero => simp [secFragmentEnergySum]
  | succ n ih =>
    rw [List.replicate_succ]
    simp only [secFragmentEnergySum, List.filter_cons] at ih ⊢
    rw [if_pos (by simpa using h)]
    simp only [List.map_cons, List.sum_cons]
    rw [ih]
    push_cast
    ring

theorem secFragmentEnergySum_photons (ph : List Secondary) (h : ∀ s ∈ ph, s.id = 22) :
    secFragmentEnergySum ph = 0 := by
  induction ph with
  | nil => simp [secFragmentEnergySum]
  | cons s rest ih =>
    simp only [secFragmentEnergySum, List.filter_cons]
    rw [if_neg (by simp [h s (List.mem_cons_self _ _)])]
    exact ih fun x hx => h x (List.mem_cons_of_mem _ hx)

/-- Structural characterization of `performInteraction`: the candidate it returns
is the input with `created` snapshotted, the primary rescaled to the residual
nuclide, the per-fragment secondaries appended, and (when photon emission is on)
a list of photon secondaries (id 22) appended after them. -/
theorem performInteraction_shape (env : PDEnv) (c : Candidate) (channel : ℕ)
    (rs : List ℝ) :
    ∃ (ph : List Secondary) (p : Vector3),
      (∀ s ∈ ph, s.id = 22) ∧
      (performInteraction env c channel rs).1
        = { c with
            created := c.current,
            current := { c.current with
              id := nucleusId (massNumber c.current.id + channelDeltaA channel)
                              (chargeNumber c.current.id + channelDeltaZ channel),
              energy := c.current.energy / (massNumber c.current.id : ℝ)
                * ((massNumber c.current.id + channelDeltaA channel : ℤ) : ℝ) },
            secondaries := c.secondaries
              ++ (List.replicate (digit channel 100000)
                    ⟨nucleusId 1 0, c.current.energy / (massNumber c.current.id : ℝ),
                      p, 1, env.interactionTag⟩
              ++ (List.replicate (digit channel 10000)
                    ⟨nucleusId 1 1, c.current.energy / (massNumber c.current.id : ℝ),
                      p, 1, env.interactionTag⟩
              ++ (List.replicate (digit channel 1000)
                    ⟨nucleusId 2 1, c.current.energy / (massNumber c.current.id : ℝ) * 2,
                      p, 1, env.interactionTag⟩
              ++ (List.replicate (digit channel 100)
                    ⟨nucleusId 3 1, c.current.energy / (massNumber c.current.id : ℝ) * 3,
                      p, 1, env.interactionTag⟩
              ++ (List.replicate (digit channel 10)
                    ⟨nucleusId 3 2, c.current.energy / (massNumber c.current.id : ℝ) * 3,
                      p, 1, env.interactionTag⟩
              ++ (List.replicate (digit channel 1)
                    ⟨nucleusId 4 2, c.current.energy / (massNumber c.current.id : ℝ) * 4,
                      p, 1, env.interactionTag⟩
              ++ ph)))))) } := by
  simp only [performInteraction, addSecondaries_eq]
  have hdA : -(digit channel 100000 : ℤ) - digit channel 10000 - 2 * digit channel 1000
      - 3 * digit channel 100 - 3 * digit channel 10 - 4 * digit channel 1
      = channelDeltaA channel := rfl
  have hdZ : -(digit channel 10000 : ℤ) - digit channel 1000 - digit channel 100
      - 2 * digit channel 10 - 2 * digit channel 1 = channelDeltaZ channel := rfl
  rw [hdA, hdZ]
  by_cases hph : env.havePhotons = true
  · rw [if_neg (not_not_intro hph)]
    obtain ⟨ph, hspec, hid⟩ := photonLoop_spec env.interactionTag _ _ _ (env.pdPhoton _) _ _
    refine ⟨ph, randomInterpolatedPosition c.previous.position c.current.position
      (randTake rs).1, hid, ?_⟩
    rw [hspec]
    simp [List.append_assoc]
  · rw [if_pos hph]
    refine ⟨[], randomInterpolatedPosition c.previous.position c.current.position
      (randTake rs).1, by simp, ?_⟩
    simp [List.append_assoc]

/-- C1 (amended): for any channel applied to a nucleus, the mass number and
charge summed over the updated primary plus all newly created secondaries equal
the pre-interaction values, and the energy summed over the updated primary plus
the nuclear-fragment secondaries equals the pre-interaction energy *exactly*;
emitted photons (when photon emission is enabled) carry *additional* energy that
is not debited from the primary, so total energy including photons can exceed the
pre-interaction energy (see the counterexample). -/
theorem C1_conservation (env : PDEnv) (c : Candidate) (channel : ℕ) (rs : List ℝ)
    (c' : Candidate)
    (hn : isNucleus c.current.id = true)
    (hApos : 0 < massNumber c.current.id)
    (hA1 : 0 ≤ massNumber c.current.id + channelDeltaA channel)
    (hA2 : massNumber c.current.id + channelDeltaA channel < 1000)
    (hZ1 : 0 ≤ chargeNumber c.current.id + channelDeltaZ channel)
    (hZ2 : chargeNumber c.current.id + channelDeltaZ channel < 1000)
    (hc' : (performInteraction env c channel rs).1 = c') :
    baryonNumber c'.current.id
      + secBaryonSum (c'.secondaries.drop c.secondaries.length)
      = baryonNumber c.current.id
    ∧ nucChargeNumber c'.current.id
      + secChargeSum (c'.secondaries.drop c.secondaries.length)
      = nucChargeNumber c.current.id
    ∧ c'.current.energy
      + secFragmentEnergySum (c'.secondaries.drop c.secondaries.length)
      = c.current.energy := by
  subst hc'
  obtain ⟨ph, p, hid, hshape⟩ := performInteraction_shape env c channel rs
  rw [hshape]
  have hnewN : isNucleus (nucleusId (massNumber c.current.id + channelDeltaA channel)
      (chargeNumber c.current.id + channelDeltaZ channel)) = true :=
    isNucleus_nucleusId _ _ hA1 hZ1
  have hnewA : massNumber (nucleusId (massNumber c.current.id + channelDeltaA channel)
      (chargeNumber c.current.id + channelDeltaZ channel))
      = massNumber c.current.id + channelDeltaA channel :=
    massNumber_nucleusId _ _ hA1 hA2
  have hnewZ : chargeNumber (nucleusId (massNumber c.current.id + channelDeltaA channel)
      (chargeNumber c.current.id + channelDeltaZ channel))
      = chargeNumber c.current.id + channelDeltaZ channel :=
    chargeNumber_nucleusId _ _ hA1 hA2 hZ1 hZ2
  have hbn : baryonNumber c.current.id = massNumber c.current.id := by
    simp [baryonNumber, hn]
  have hcn : nucChargeNumber c.current.id = chargeNumber c.current.id := by
    simp [nucChargeNumber, hn]
  have hdrop : ∀ Rest : List Secondary,
      ((c.secondaries ++ Rest).drop c.secondaries.length) = Rest :=
    fun Rest => List.drop_left _ _
  refine ⟨?_, ?_, ?_⟩
  · show baryonNumber (nucleusId _ _) + _ = _
    rw [hdrop]
    simp only [secBaryonSum_append, secBaryonSum_replicate,
      secBaryonSum_photons ph hid]
    rw [show baryonNumber (nucleusId 1 0) = 1 from by decide,
      show baryonNumber (nucleusId 1 1) = 1 from by decide,
      show baryonNumber (nucleusId 2 1) = 2 from by decide,
      show baryonNumber (nucleusId 3 1) = 3 from by decide,
      show baryonNumber (nucleusId 3 2) = 3 from by decide,
      show baryonNumber (nucleusId 4 2) = 4 from by decide]
    rw [hbn, show baryonNumber (nucleusId (massNumber c.current.id + channelDeltaA channel)
        (chargeNumber c.current.id + channelDeltaZ channel))
        = massNumber c.current.id + channelDeltaA channel from by
      rw [baryonNumber, hnewN]
      simp [hnewA]]
    simp only [channelDeltaA]
    ring
  · rw [hdrop]
    simp only [secChargeSum_append, secChargeSum_replicate,
      secChargeSum_photons ph hid]
    rw [show nucChargeNumber (nucleusId 1 0) = 0 from by decide,
      show nucChargeNumber (nucleusId 1 1) = 1 from by decide,
      show nucChargeNumber (nucleusId 2 1) = 1 from by decide,
      show nucChargeNumber (nucleusId 3 1) = 1 from by decide,
      show nucChargeNumber (nucleusId 3 2) = 2 from by decide,
      show nucChargeNumber (nucleusId 4 2) = 2 from by decide]
    rw [hcn, show nucChargeNumber (nucleusId (massNumber c.current.id + channelDeltaA channel)
        (chargeNumber c.current.id + channelDeltaZ channel))
        = chargeNumber c.current.id + channelDeltaZ channel from by
      rw [nucChargeNumber, hnewN]
      simp [hnewZ]]
    simp only [channelDeltaZ]
    ring
  · rw [hdrop]
    have hr1 := secFragmentEnergySum_replicate (digit channel 100000)
      ⟨nucleusId 1 0, c.current.energy / (massNumber c.current.id : ℝ), p, 1,
        env.interactionTag⟩ (by show nucleusId 1 0 ≠ 22; decide)
    have hr2 := secFragmentEnergySum_replicate (digit channel 10000)
      ⟨nucleusId 1 1, c.current.energy / (massNumber c.current.id : ℝ), p, 1,
        env.interactionTag⟩ (by show nucleusId 1 1 ≠ 22; decide)
    have hr3 := secFragmentEnergySum_replicate (digit channel 1000)
      ⟨nucleusId 2 1, c.current.energy / (massNumber c.current.id : ℝ) * 2, p, 1,
        env.interactionTag⟩ (by show nucleusId 2 1 ≠ 22; decide)
    have hr4 := secFragmentEnergySum_replicate (digit channel 100)
      ⟨nucleusId 3 1, c.current.energy / (massNumber c.current.id : ℝ) * 3, p, 1,
        env.interactionTag⟩ (by show nucleusId 3 1 ≠ 22; decide)
    have hr5 := secFragmentEnergySum_replicate (digit channel 10)
      ⟨nucleusId 3 2, c.current.energy / (massNumber c.current.id : ℝ) * 3, p, 1,
        env.interactionTag⟩ (by show nucleusId 3 2 ≠ 22; decide)
    have hr6 := secFragmentEnergySum_replicate (digit channel 1)
      ⟨nucleusId 4 2, c.current.energy / (massNumber c.current.id : ℝ) * 4, p, 1,
        env.interactionTag⟩ (by show nucleusId 4 2 ≠ 22; decide)
    simp only [secFragmentEnergySum_append, hr1, hr2, hr3, hr4, hr5, hr6,
      secFragmentEnergySum_photons ph hid]
    have hA0 : (massNumber c.current.id : ℝ) ≠ 0 := by
      exact_mod_cast ne_of_gt hApos
    show c.current.energy / (massNumber c.current.id : ℝ)
        * ((massNumber c.current.id + channelDeltaA channel : ℤ) : ℝ) + _ = _
    simp only [channelDeltaA]
    push_cast
    field_simp
    ring

/-- Witness for C1: one-neutron emission from He-4 — mass number, charge, and
energy are conserved over the residual He-3 plus the emitted neutron. -/
theorem C1_conservation_witness :
    baryonNumber cHe4out.current.id
      + secBaryonSum (cHe4out.secondaries.drop cHe4.secondaries.length)
      = baryonNumber cHe4.current.id
    ∧ nucChargeNumber cHe4out.current.id
      + secChargeSum (cHe4out.secondaries.drop cHe4.secondaries.length)
      = nucChargeNumber cHe4.current.id
    ∧ cHe4out.current.energy
      + secFragmentEnergySum (cHe4out.secondaries.drop cHe4.secondaries.length)
      = cHe4.current.energy :=
  C1_conservation pdEnvC cHe4 100000 [1 / 2] cHe4out
    (by decide) (by decide) (by decide) (by decide) (by decide) (by decide)
    (by rw [performInteraction_cHe4])

theorem performInteraction_cHe4_photon :
    performInteraction pdEnvPhoton cHe4 100000 [1 / 2, 1 / 2, 0] = (cHe4photonOut, []) := by
  simp only [performInteraction]
  rw [show digit 100000 100000 = 1 from by decide,
    show digit 100000 10000 = 0 from by decide,
    show digit 100000 1000 = 0 from by decide,
    show digit 100000 100 = 0 from by decide,
    show digit 100000 10 = 0 from by decide,
    show digit 100000 1 = 0 from by decide]
  simp only [randTake]
  rw [show massNumber cHe4.current.id = 4 from by decide,
    show chargeNumber cHe4.current.id = 2 from by decide]
  rw [addSecondaries_one, addSecondaries_zero, addSecondaries_zero, addSecondaries_zero,
    addSecondaries_zero, addSecondaries_zero]
  rw [if_neg (not_not_intro (by decide : pdEnvPhoton.havePhotons = true))]
  simp only [Candidate.addSecondary, Nat.cast_zero, Nat.cast_one]
  norm_num
  have hlf3 : (⟨nucleusId 3 2, cHe4.current.energy / 4 * 3, cHe4.current.position,
      cHe4.current.direction⟩ : ParticleState).lorentzFactor = 10 ^ 8 := by
    rw [lorentzFactor_eq]
    norm_num [show massNumber (nucleusId 3 2) = 3 from by decide,
      show cHe4.current.energy = 4 * 10 ^ 8 from rfl]
  rw [hlf3]
  rw [show (10 : ℝ) ^ 8 * (1 + cHe4.redshift) = 10 ^ 8 from by
    rw [show cHe4.redshift = 0 from rfl]; norm_num]
  rw [log10_pow10 8, show ((8 : ℕ) : ℝ) = (8 : ℝ) from by norm_num, cround_l8]
  rw [show pdEnvPhoton.pdPhoton 2020201 = [⟨5, List.replicate 251 1⟩] from by
    show (if (2020201 : ℤ) = 2020201 then [(⟨5, List.replicate 251 1⟩ : PhotonEmission)]
        else []) = _
    rw [if_pos rfl]]
  simp only [photonLoop, randTake]
  rw [getD_replicate 1 0 251 100 (by omega)]
  rw [if_neg (by norm_num : ¬((1 : ℝ) / 2 > 1))]
  simp only [Candidate.addSecondary, cHe4photonOut, cHe4, mkCand, mkState,
    randomInterpolatedPosition, Vector3_add, Vector3_sub, Vector3_smul, Prod.mk.injEq]
  norm_num
  rfl

/-- Counterexample for C1: with photon emission enabled, the accepted gamma line
(rest-frame energy 5, boosted with `cos θ = −1` to `10^9`) is an extra secondary
whose energy is not debited from the primary: the total energy over primary plus
all new secondaries is `14·10^8`, strictly above the pre-interaction `4·10^8`. -/
theorem C1_photon_adds_energy :
    (performInteraction pdEnvPhoton cHe4 100000 [1 / 2, 1 / 2, 0]).1 = cHe4photonOut
    ∧ cHe4photonOut.current.energy
      + secEnergySum (cHe4photonOut.secondaries.drop cHe4.secondaries.length)
      = 14 * 10 ^ 8
    ∧ cHe4.current.energy = 4 * 10 ^ 8
    ∧ (14 : ℝ) * 10 ^ 8 ≠ 4 * 10 ^ 8 := by
  refine ⟨by rw [performInteraction_cHe4_photon], ?_, rfl, by norm_num⟩
  show (10 : ℝ) ^ 8 * 3 + secEnergySum ([(⟨nucleusId 1 0, 10 ^ 8, ⟨0, 0, 0⟩, 1, "PD"⟩ : Secondary),
    ⟨22, 10 ^ 9, ⟨0, 0, 0⟩, 1, "PD"⟩].drop 0) = 14 * 10 ^ 8
  simp [secEnergySum]
  norm_num

/-! ## C9 — the integrator's frame effect -/

/-- C9 (amended): whenever `PropagationBP::process` returns, it has created no
secondaries and mutated only `previous` (re-snapshotted to the pre-call current
state), the current position and direction, `currentStep`, and `nextStep`; the
species id, energy, redshift, `created` snapshot, secondary list, and origin tag
are unchanged.  (The original claim omits the `previous` mutation performed at
line 82 of the source; see the counterexample.) -/
theorem C9_frame_effect (env : BPEnv) (fuel : ℕ) (c c' : Candidate)
    (h : bpProcess env fuel c = some c') :
    c'.current.id = c.current.id
    ∧ c'.current.energy = c.current.energy
    ∧ c'.secondaries = c.secondaries
    ∧ c'.redshift = c.redshift
    ∧ c'.created = c.created
    ∧ c'.tagOrigin = c.tagOrigin
    ∧ c'.previous = c.current := by
  simp only [bpProcess] at h
  split_ifs at h with hq hfix
  · have := Option.some.inj h
    rw [← this]
    exact ⟨rfl, rfl, rfl, rfl, rfl, rfl, rfl⟩
  · have := Option.some.inj h
    rw [← this]
    exact ⟨rfl, rfl, rfl, rfl, rfl, rfl, rfl⟩
  · cases hbl : bpLoop env fuel ⟨c.current.position, c.current.direction⟩ c.redshift
        (charge c.current.id) (c.current.energy / (c_light * c_light))
        (clip c.nextStep env.minStep env.maxStep) (clip c.nextStep env.minStep env.maxStep) with
    | none =>
      rw [hbl] at h
      simp at h
    | some v =>
      rw [hbl] at h
      obtain ⟨yOut, stepOut, newStep⟩ := v
      simp only [] at h
      have := Option.some.inj h
      rw [← this]
      exact ⟨rfl, rfl, rfl, rfl, rfl, rfl, rfl⟩

/-- Witness for C9: the neutral candidate `cNeutral` under `bpEnvZero`. -/
theorem C9_frame_effect_witness :
    cNeutralOut.current.id = cNeutral.current.id
    ∧ cNeutralOut.current.energy = cNeutral.current.energy
    ∧ cNeutralOut.secondaries = cNeutral.secondaries
    ∧ cNeutralOut.redshift = cNeutral.redshift
    ∧ cNeutralOut.created = cNeutral.created
    ∧ cNeutralOut.tagOrigin = cNeutral.tagOrigin
    ∧ cNeutralOut.previous = cNeutral.current := by
  refine C9_frame_effect bpEnvZero 1 cNeutral cNeutralOut ?_
  simp only [bpProcess]
  rw [if_pos (show charge cNeutral.current.id = 0 from by simp [charge, isNucleus, cNeutral,
    mkCand, mkState])]
  simp only [Option.some.injEq, cNeutral, cNeutralOut, mkCand, mkState, bpEnvZero,
    Vector3_add, Vector3_smul, clip]
  norm_num [min_def, max_def]

/-- Counterexample for C9: `process` overwrites `previous` with the pre-step
current state, so a candidate whose `previous` differs from `current` does not
keep "every other field unchanged" as the claim states. -/
theorem C9_previous_is_mutated :
    Option.map (fun c => c.previous) (bpProcess bpEnvZero 1 cNeutral)
      = some cNeutral.current
    ∧ cNeutral.previous ≠ cNeutral.current := by
  constructor
  · simp only [bpProcess]
    rw [if_pos (show charge cNeutral.current.id = 0 from by simp [charge, isNucleus, cNeutral,
      mkCand, mkState])]
    rfl
  · intro h
    have := congrArg ParticleState.energy h
    simp [cNeutral, mkCand, mkState] at this

/-! ## C10 — the radial-scaling block of EPP::process is dead code -/

theorem eppDrawPairs_pf (env : EPPEnv) (pf : PhotonFieldM) (i : ℕ) :
    ∀ (fuel : ℕ) (dE : ℝ) (a b : Vector3) (rs : List ℝ),
      eppDrawPairs { env with photonField := pf } i fuel dE a b rs
        = eppDrawPairs env i fuel dE a b rs := by
  intro fuel
  induction fuel with
  | zero => intro dE a b rs; rfl
  | succ fuel ih =>
    intro dE a b rs
    simp only [eppDrawPairs]
    simp only [ih]

theorem map_obs_of_proj (F G : List Secondary × List ℝ → ℝ × ℝ × List (ℤ × ℝ))
    (hFG : ∀ x y : List Secondary × List ℝ, x.1.map secProj = y.1.map secProj → F x = G y)
    (o o' : Option (List Secondary × List ℝ))
    (h : Option.map (fun x => (x.1.map secProj, x.2)) o
       = Option.map (fun x => (x.1.map secProj, x.2)) o') :
    Option.map F o = Option.map G o' := by
  rcases o with _ | x <;> rcases o' with _ | y
  · rfl
  · simp at h
  · simp at h
  · simp only [Option.map_some', Option.some.injEq, Prod.mk.injEq] at h
    simp only [Option.map_some', Option.some.injEq]
    exact hFG x y h.1

theorem eppDrawPairs_proj (env : EPPEnv) (i : ℕ) :
    ∀ (fuel : ℕ) (dE : ℝ) (a b a' b' : Vector3) (rs : List ℝ),
      Option.map (fun x => (x.1.map secProj, x.2)) (eppDrawPairs env i fuel dE a b rs)
        = Option.map (fun x => (x.1.map secProj, x.2)) (eppDrawPairs env i fuel dE a' b' rs) := by
  intro fuel
  induction fuel with
  | zero => intro dE a b a' b' rs; rfl
  | succ fuel ih =>
    intro dE a b a' b' rs
    simp only [eppDrawPairs]
    by_cases hdE : ¬dE > 0
    · rw [if_pos hdE, if_pos hdE]
    · rw [if_neg hdE, if_neg hdE]
      have key : ∀ (s t : Secondary) (o : Option (List Secondary × List ℝ)),
          Option.map (fun x => (x.1.map secProj, x.2))
            (match o with
             | none => none
             | some (secs, rsOut) => some (s :: t :: secs, rsOut))
          = Option.map (fun y => (secProj s :: secProj t :: y.1, y.2))
              (Option.map (fun x => (x.1.map secProj, x.2)) o) := by
        intro s t o
        rcases o with _ | ⟨l, r⟩ <;> rfl
      split_ifs with h1 h2
      · rfl
      · rw [key, key, ih _ a b a' b' _]
        rfl
      · rw [key, key, ih _ a b a' b' _]
        rfl

/-- C10: `ElectronPairProduction::process` is observationally equivalent to the
same function with the radial photon-field block removed — the block's
`pos_scale` is a shadowing local, so the outer `pos_scale` stays 1 — and the
observables (resulting energy, step limit, and the species/energy content of the
produced secondaries) are independent of `hasScaleRadius`, the scale radius, the
outer radius, and the particle's position. -/
theorem C10_radial_block_dead :
    (∀ (env : EPPEnv) (pfA pfB : PhotonFieldM) (fuel : ℕ) (c : Candidate) (rs : List ℝ),
      pfA.redshiftScaling = pfB.redshiftScaling →
      eppProcess { env with photonField := pfA } fuel c rs
        = eppProcessNoRadial { env with photonField := pfB } fuel c rs)
    ∧ (∀ (env : EPPEnv) (fuel : ℕ) (c : Candidate) (rs : List ℝ) (p q : Vector3),
        Option.map eppObservables
          (eppProcess env fuel { c with current := { c.current with position := p } } rs)
        = Option.map eppObservables
          (eppProcess env fuel { c with current := { c.current with position := q } } rs)) := by
  constructor
  · intro env pfA pfB fuel c rs hAB
    have hll : ∀ (id : ℤ) (lf z : ℝ),
        eppLossLength { env with photonField := pfA } id lf z
          = eppLossLength { env with photonField := pfB } id lf z := by
      intro id lf z
      simp only [eppLossLength, hAB]
    simp only [eppProcess, eppProcessNoRadial, hll, eppDrawPairs_pf, div_one]
  · intro env fuel c rs p q
    simp only [eppProcess, ParticleState.lorentzFactor]
    split_ifs with hn hmax hel <;>
      first
        | (simp [eppObservables, Candidate.limitNextStep, ParticleState.setLorentzFactor]
           done)
        | (have key2 : ∀ (g : List Secondary → Candidate)
               (o : Option (List Secondary × List ℝ)),
               Option.map eppObservables
                 (match o with | none => none | some (secs, _) => some (g secs))
               = Option.map (fun x => eppObservables (g x.1)) o := by
             intro g o
             rcases o with _ | ⟨l, r⟩ <;> rfl
           rw [key2, key2]
           refine map_obs_of_proj _ _ (fun x y hxy => ?_) _ _
             (eppDrawPairs_proj env _ fuel _ c.previous.position p c.previous.position q rs)
           simp [eppObservables, Candidate.limitNextStep, ParticleState.setLorentzFactor, hxy])

/-- Witness for C10: concrete instantiation — a photon field with a scale radius
versus none, and two different particle positions. -/
theorem C10_radial_block_dead_witness :
    eppProcess { eppEnvW with photonField := constPF } 1 cProton100 []
      = eppProcessNoRadial { eppEnvW with photonField :=
          { constPF with hasScaleRadius := true, scaleRadius := 3, outerRadius := 7 } }
          1 cProton100 []
    ∧ Option.map eppObservables
        (eppProcess eppEnvW 1
          { cProton100 with current := { cProton100.current with position := ⟨1, 2, 3⟩ } } [])
      = Option.map eppObservables
        (eppProcess eppEnvW 1
          { cProton100 with current := { cProton100.current with position := ⟨4, 5, 6⟩ } } []) := by
  exact ⟨C10_radial_block_dead.1 eppEnvW constPF
      { constPF with hasScaleRadius := true, scaleRadius := 3, outerRadius := 7 }
      1 cProton100 [] rfl,
    C10_radial_block_dead.2 eppEnvW 1 cProton100 [] ⟨1, 2, 3⟩ ⟨4, 5, 6⟩⟩

/-! ## C7 — the adaptive retry loop of PropagationBP::process -/

theorem Vector3_zero : (0 : Vector3) = ⟨0, 0, 0⟩ := rfl

theorem unit_zero : (Vector3.mk 0 0 0).getUnitVector = ⟨0, 0, 0⟩ := by
  norm_num [Vector3.getUnitVector, Vector3.getR]

theorem unit_ex : (Vector3.mk 1 0 0).getUnitVector = ⟨1, 0, 0⟩ := by
  norm_num [Vector3.getUnitVector, Vector3.getR]

theorem unit_ey : (Vector3.mk 0 1 0).getUnitVector = ⟨0, 1, 0⟩ := by
  norm_num [Vector3.getUnitVector, Vector3.getR]

theorem unit_ney : (Vector3.mk 0 (-1) 0).getUnitVector = ⟨0, -1, 0⟩ := by
  norm_num [Vector3.getUnitVector, Vector3.getR]

theorem unit_xy : (Vector3.mk 1 1 0).getUnitVector
    = ⟨1 / Real.sqrt 2, 1 / Real.sqrt 2, 0⟩ := by
  norm_num [Vector3.getUnitVector, Vector3.getR, show (1:ℝ)^2 + 1^2 + 0^2 = 2 by norm_num]

theorem unit_xny : (Vector3.mk 1 (-1) 0).getUnitVector
    = ⟨1 / Real.sqrt 2, -1 / Real.sqrt 2, 0⟩ := by
  norm_num [Vector3.getUnitVector, Vector3.getR,
    show (1:ℝ)^2 + (-1)^2 + 0^2 = 2 by norm_num]

theorem getFieldAtPosition_zeroField (env : BPEnv) (pos : Vector3) (z : ℝ)
    (hf : env.field = some fun _ _ => (0 : Vector3)) :
    getFieldAtPosition env pos z = ⟨0, 0, 0⟩ := by
  simp only [getFieldAtPosition, hf]
  split_ifs <;> simp [Vector3_zero, Vector3_smul]

theorem dY_zeroAdv (x : Vector3) (h z q m : ℝ) :
    dY bpEnvZero x ⟨1, 0, 0⟩ h z q m = ⟨⟨x.x + h, x.y, x.z⟩, ⟨1, 0, 0⟩⟩ := by
  have hb : ∀ (p : Vector3) (zz : ℝ), getFieldAtPosition bpEnvZero p zz = ⟨0, 0, 0⟩ :=
    fun p zz => getFieldAtPosition_zeroField bpEnvZero p zz rfl
  have hfield : bpEnvZero.field = some (fun _ _ => (0 : Vector3)) := rfl
  have hadv : bpEnvZero.advField = fun _ => (0 : Vector3) := rfl
  simp only [dY, getAdvFieldAtPosition, hfield, hadv, hb, Vector3_zero, unit_zero,
    Vector3_add, Vector3_smul, Vector3_sub, Vector3.cross, Vector3.dot]
  norm_num [Vector3.getR, unit_ex]
  ring

theorem tryStep_zeroAdv (x : Vector3) (h z q m : ℝ) :
    (tryStep bpEnvZero ⟨x, ⟨1, 0, 0⟩⟩ h z q m).2 = 0 := by
  simp only [tryStep, dY_zeroAdv, errorEstimation, Vector3_sub]
  have hd : (⟨x.x + h - (x.x + h / 2 + h / 2), x.y - x.y, x.z - x.z⟩ : Vector3)
      = ⟨0, 0, 0⟩ := by
    have h1 : x.x + h - (x.x + h / 2 + h / 2) = 0 := by ring
    rw [h1, sub_self, sub_self]
  rw [hd]
  norm_num [Vector3.getR]

theorem dY_flip_origin (h z q m : ℝ) :
    dY bpEnvFlip ⟨0, 0, 0⟩ ⟨1, 0, 0⟩ h z q m
      = ⟨⟨h / Real.sqrt 2, h / Real.sqrt 2, 0⟩, ⟨1, 0, 0⟩⟩ := by
  have hb : ∀ (p : Vector3) (zz : ℝ), getFieldAtPosition bpEnvFlip p zz = ⟨0, 0, 0⟩ :=
    fun p zz => getFieldAtPosition_zeroField bpEnvFlip p zz rfl
  have hfield : bpEnvFlip.field = some (fun _ _ => (0 : Vector3)) := rfl
  have hadv : bpEnvFlip.advField = flipWind := rfl
  have hwind : flipWind ⟨0, 0, 0⟩ = ⟨0, 1, 0⟩ := by
    norm_num [flipWind, c_light]
  simp only [dY, getAdvFieldAtPosition, hfield, hadv, hwind, hb, unit_ey,
    Vector3_add, Vector3_smul, Vector3.cross, Vector3.dot]
  norm_num [Vector3.getR, unit_xy, c_light]
  all_goals ring

theorem dY_flip_posx (p : Vector3) (hp : 0 < p.x) (h z q m : ℝ) :
    dY bpEnvFlip p ⟨1, 0, 0⟩ h z q m
      = ⟨⟨p.x + h / Real.sqrt 2, p.y - h / Real.sqrt 2, p.z⟩, ⟨1, 0, 0⟩⟩ := by
  have hb : ∀ (w : Vector3) (zz : ℝ), getFieldAtPosition bpEnvFlip w zz = ⟨0, 0, 0⟩ :=
    fun w zz => getFieldAtPosition_zeroField bpEnvFlip w zz rfl
  have hfield : bpEnvFlip.field = some (fun _ _ => (0 : Vector3)) := rfl
  have hadv : bpEnvFlip.advField = flipWind := rfl
  have hwind : flipWind p = ⟨0, -1, 0⟩ := by
    rw [flipWind, if_pos hp]
    norm_num [c_light]
  simp only [dY, getAdvFieldAtPosition, hfield, hadv, hwind, hb, unit_ney,
    Vector3_add, Vector3_smul, Vector3.cross, Vector3.dot]
  norm_num [Vector3.getR, unit_xny, c_light]
  all_goals first | (constructor <;> ring) | simp


theorem tryStep_flip (s z q m : ℝ) (hs : 0 < s) :
    (tryStep bpEnvFlip ⟨⟨0, 0, 0⟩, ⟨1, 0, 0⟩⟩ s z q m).2 = 4 / (3 * Real.sqrt 2) := by
  have h2 : (0 : ℝ) < Real.sqrt 2 := Real.sqrt_pos.mpr (by norm_num)
  have hhalf : dY bpEnvFlip ⟨0, 0, 0⟩ ⟨1, 0, 0⟩ (s / 2) z q m
      = ⟨⟨s / 2 / Real.sqrt 2, s / 2 / Real.sqrt 2, 0⟩, ⟨1, 0, 0⟩⟩ := dY_flip_origin _ z q m
  have hcmp : dY bpEnvFlip ⟨s / 2 / Real.sqrt 2, s / 2 / Real.sqrt 2, 0⟩ ⟨1, 0, 0⟩
        (s / 2) z q m
      = ⟨⟨s / 2 / Real.sqrt 2 + s / 2 / Real.sqrt 2,
          s / 2 / Real.sqrt 2 - s / 2 / Real.sqrt 2, 0⟩, ⟨1, 0, 0⟩⟩ :=
    dY_flip_posx _ (by positivity) (s / 2) z q m
  simp only [tryStep, dY_flip_origin, hhalf, hcmp, errorEstimation, Vector3_sub]
  have hd : (Vector3.mk (s / Real.sqrt 2 - (s / 2 / Real.sqrt 2 + s / 2 / Real.sqrt 2))
      (s / Real.sqrt 2 - (s / 2 / Real.sqrt 2 - s / 2 / Real.sqrt 2)) (0 - 0))
      = ⟨0, s / Real.sqrt 2, 0⟩ := by
    have e1 : s / Real.sqrt 2 - (s / 2 / Real.sqrt 2 + s / 2 / Real.sqrt 2) = 0 := by ring
    have e2 : s / Real.sqrt 2 - (s / 2 / Real.sqrt 2 - s / 2 / Real.sqrt 2)
        = s / Real.sqrt 2 := by ring
    rw [e1, e2, sub_zero]
  rw [hd]
  have hr : (Vector3.mk 0 (s / Real.sqrt 2) 0).getR = s / Real.sqrt 2 := by
    simp only [Vector3.getR]
    rw [show (0:ℝ)^2 + (s / Real.sqrt 2)^2 + 0^2 = (s / Real.sqrt 2)^2 by ring]
    exact Real.sqrt_sq (by positivity)
  rw [hr]
  rw [div_eq_div_iff (by positivity) (by positivity)]
  field_simp
  ring

theorem flip_ratio_gt_one : 4 / (3 * Real.sqrt 2) / bpEnvFlip.tolerance > 1 := by
  have h2 : (0 : ℝ) < Real.sqrt 2 := Real.sqrt_pos.mpr (by norm_num)
  have hlt : Real.sqrt 2 < 3 / 2 := by
    rw [show (3 / 2 : ℝ) = Real.sqrt ((3 / 2) ^ 2) from (Real.sqrt_sq (by norm_num)).symm]
    exact Real.sqrt_lt_sqrt (by norm_num) (by norm_num)
  have htol : bpEnvFlip.tolerance = 1 / 2 := rfl
  have key : 4 / (3 * Real.sqrt 2) / (1 / 2 : ℝ) = 8 / (3 * Real.sqrt 2) := by
    field_simp
    norm_num
  rw [htol, gt_iff_lt, key, lt_div_iff (by positivity)]
  nlinarith [hlt]

theorem bpShrink_pos (minStep step r : ℝ) (hs : 0 < step) :
    0 < bpShrink minStep step r :=
  lt_of_lt_of_le (by positivity : (0:ℝ) < 0.1 * step)
    (le_trans (le_max_right _ _) (le_max_left _ _))

theorem bpLoop_flip_none (z q m : ℝ) :
    ∀ (fuel : ℕ) (s ns : ℝ), 0 < s →
      bpLoop bpEnvFlip fuel ⟨⟨0, 0, 0⟩, ⟨1, 0, 0⟩⟩ z q m s ns = none := by
  intro fuel
  induction fuel with
  | zero => intro s ns hs; rfl
  | succ fuel ih =>
    intro s ns hs
    simp only [bpLoop]
    rw [tryStep_flip s z q m hs]
    rw [if_pos flip_ratio_gt_one]
    rw [if_neg (show ¬s = bpEnvFlip.minStep by
      rw [show bpEnvFlip.minStep = 0 from rfl]; exact hs.ne')]
    exact ih _ _ (bpShrink_pos _ _ _ hs)

theorem charge_proton : charge (nucleusId 1 1) = 1 := by
  simp only [charge, if_pos (isNucleus_nucleusId 1 1 (by norm_num) (by norm_num))]
  rw [chargeNumber_nucleusId 1 1 (by norm_num) (by norm_num) (by norm_num) (by norm_num)]
  norm_num [eplus]

/-- Counterexample to C7's "the retry loop always terminates": with `minStep = 0`
(accepted by the setters), a zero magnetic field and an advection wind that flips
across the plane `x = 0`, the error estimate is the step-independent constant
`4/(3·√2)` and the ratio `r = 8/(3·√2) > 1` at every attempted step, the step
shrinks but stays positive, never equals `minStep = 0`, and the loop never
accepts: `process` diverges for every fuel bound (in exact real arithmetic). -/
theorem C7_minstep_zero_divergence : bpProcessDiverges bpEnvFlip cBP := by
  intro n
  simp only [bpProcess, cBP, mkCand, mkState]
  rw [if_neg (show ¬charge (nucleusId 1 1) = 0 by rw [charge_proton]; norm_num)]
  rw [if_neg (show ¬bpEnvFlip.minStep = bpEnvFlip.maxStep by
    rw [show bpEnvFlip.minStep = 0 from rfl, show bpEnvFlip.maxStep = 1 from rfl]
    norm_num)]
  rw [show clip 1 bpEnvFlip.minStep bpEnvFlip.maxStep = 1 by
    rw [show bpEnvFlip.minStep = 0 from rfl, show bpEnvFlip.maxStep = 1 from rfl]
    norm_num [clip]]
  rw [bpLoop_flip_none 0 (charge (nucleusId 1 1)) (1 / (c_light * c_light)) n 1 1
    one_pos]

theorem rpow_neg_lt_one {r : ℝ} (hr : 1 < r) : r ^ (-0.2 : ℝ) < 1 :=
  Real.rpow_lt_one_of_one_lt_of_neg hr (by norm_num)

theorem bpShrink_le (minStep step r : ℝ) (h0 : 0 < step) (hr : 1 < r) :
    bpShrink minStep step r ≤ max (0.95 * step) minStep := by
  unfold bpShrink
  apply max_le_max _ le_rfl
  apply max_le
  · have hx : step * 0.95 * r ^ (-0.2 : ℝ) ≤ step * 0.95 * 1 :=
      mul_le_mul_of_nonneg_left (le_of_lt (rpow_neg_lt_one hr)) (by positivity)
    nlinarith [hx]
  · nlinarith

theorem bpLoop_terminates (env : BPEnv) (yIn : Y) (z q m : ℝ) (h0 : 0 < env.minStep) :
    ∀ (k : ℕ) (s ns : ℝ), env.minStep ≤ s → (0.95 : ℝ) ^ k * s ≤ env.minStep →
      (bpLoop env (k + 1) yIn z q m s ns).isSome = true := by
  intro k
  induction k with
  | zero =>
    intro s ns hms hdecay
    have hs : s = env.minStep := le_antisymm (by simpa using hdecay) hms
    subst hs
    simp only [bpLoop]
    split_ifs <;> rfl
  | succ k ih =>
    intro s ns hms hdecay
    obtain ⟨j, hj⟩ : ∃ j, k + 1 = j := ⟨k + 1, rfl⟩
    rw [hj] at ih ⊢
    simp only [bpLoop]
    split_ifs with h1 h2 h3
    · rfl
    · have hlt : env.minStep < s := lt_of_le_of_ne hms (Ne.symm h2)
      have hs0 : 0 < s := lt_trans h0 hlt
      apply ih
      · exact le_max_right _ _
      · refine le_trans (mul_le_mul_of_nonneg_left
          (bpShrink_le _ _ _ hs0 h1) (by positivity)) ?_
        rw [mul_max_of_nonneg _ _ (by positivity : (0:ℝ) ≤ 0.95 ^ k)]
        apply max_le
        · exact le_trans (le_of_eq (by ring)) hdecay
        · exact mul_le_of_le_one_left h0.le
            (pow_le_one (by norm_num) (by norm_num))
    · rfl
    · rfl

/-- C7: in the adaptive retry loop of `PropagationBP::process`, each retry
replaces the step by `step·0.95·r^(−0.2)` clamped to at least `0.1·step` and at
least `minStep`, which strictly decreases the step and never drops below
`minStep`; once the step equals `minStep` the attempt is accepted; and on
acceptance with `r ≤ 1` the suggested next step is `step·0.95·r^(−0.2)` clamped
to at most `5·step` and at most `maxStep`.  Amended: the loop is guaranteed to
terminate when `minStep > 0`; the source also accepts `minStep = 0`, for which
the loop need not terminate in exact real arithmetic (see the counterexample). -/
theorem C7_adaptive_retry_loop :
    (∀ (minStep step r : ℝ), 0 < minStep → minStep < step → 1 < r →
        bpShrink minStep step r < step
        ∧ minStep ≤ bpShrink minStep step r
        ∧ 0.1 * step ≤ bpShrink minStep step r)
    ∧ (∀ (env : BPEnv) (yIn : Y) (z q m ns : ℝ) (fuel : ℕ),
        (bpLoop env (fuel + 1) yIn z q m env.minStep ns).isSome = true)
    ∧ (∀ (env : BPEnv) (c : Candidate), 0 < env.minStep → env.minStep ≤ env.maxStep →
        ∃ n, (bpProcess env n c).isSome = true)
    ∧ (∀ (env : BPEnv) (yIn : Y) (z q m step ns : ℝ) (fuel : ℕ),
        (tryStep env yIn step z q m).2 / env.tolerance ≤ 1 →
        step ≠ env.maxStep →
        bpLoop env (fuel + 1) yIn z q m step ns
          = some ((tryStep env yIn step z q m).1, step,
              bpGrow env.maxStep step ((tryStep env yIn step z q m).2 / env.tolerance))) := by
  refine ⟨?_, ?_, ?_, ?_⟩
  · intro minStep step r h0 hms hr
    refine ⟨?_, le_max_right _ _, le_trans (le_max_right _ _) (le_max_left _ _)⟩
    have hs0 : 0 < step := lt_trans h0 hms
    unfold bpShrink
    apply max_lt (max_lt ?_ ?_) hms
    · have hx : step * 0.95 * r ^ (-0.2 : ℝ) < step * 0.95 * 1 :=
        mul_lt_mul_of_pos_left (rpow_neg_lt_one hr) (by positivity)
      nlinarith [hx]
    · nlinarith
  · intro env yIn z q m ns fuel
    simp only [bpLoop]
    split_ifs <;> rfl
  · intro env c h0 hle
    obtain ⟨k, hk⟩ : ∃ k, (0.95 : ℝ) ^ k * env.maxStep ≤ env.minStep := by
      rcases lt_or_le env.maxStep env.minStep with hlt | hge
      · exact ⟨0, by simpa using hlt.le⟩
      · have hmax0 : 0 < env.maxStep := lt_of_lt_of_le h0 hle
        obtain ⟨n, hn⟩ := exists_pow_lt_of_lt_one (div_pos h0 hmax0)
          (by norm_num : (0.95 : ℝ) < 1)
        exact ⟨n, le_of_lt ((lt_div_iff hmax0).mp hn)⟩
    refine ⟨k + 1, ?_⟩
    simp only [bpProcess]
    split_ifs with hq hfix
    · rfl
    · rfl
    · have hs1 : env.minStep ≤ clip c.nextStep env.minStep env.maxStep := le_max_left _ _
      have hs2 : clip c.nextStep env.minStep env.maxStep ≤ env.maxStep :=
        max_le hle (min_le_right _ _)
      have hdecay : (0.95 : ℝ) ^ k * clip c.nextStep env.minStep env.maxStep
          ≤ env.minStep :=
        le_trans (mul_le_mul_of_nonneg_left hs2 (by positivity)) hk
      have hsome := bpLoop_terminates env ⟨c.current.position, c.current.direction⟩
        c.redshift (charge c.current.id) (c.current.energy / (c_light * c_light)) h0 k
        (clip c.nextStep env.minStep env.maxStep)
        (clip c.nextStep env.minStep env.maxStep) hs1 hdecay
      obtain ⟨v, hv⟩ := Option.isSome_iff_exists.mp hsome
      rw [hv]
      rfl
  · intro env yIn z q m step ns fuel hr hne
    simp only [bpLoop]
    rw [if_neg (not_lt.mpr hr), if_pos hne]

/-- Witness for C7: the shrink clamps at `minStep = 1/2`, `step = 1`, `r = 2`;
immediate acceptance at the minimum step, guaranteed termination, and the grow
formula under the zero-advection configuration (error 0, so `r = 0 ≤ 1`). -/
theorem C7_adaptive_retry_loop_witness :
    (bpShrink (1 / 2) 1 2 < 1 ∧ (1 / 2 : ℝ) ≤ bpShrink (1 / 2) 1 2
      ∧ 0.1 * 1 ≤ bpShrink (1 / 2) 1 2)
    ∧ (bpLoop bpEnvZero (0 + 1) ⟨⟨0, 0, 0⟩, ⟨1, 0, 0⟩⟩ 0 1 1 bpEnvZero.minStep 1).isSome
        = true
    ∧ (∃ n, (bpProcess bpEnvZero n cBP).isSome = true)
    ∧ bpLoop bpEnvZero (0 + 1) ⟨⟨0, 0, 0⟩, ⟨1, 0, 0⟩⟩ 0 1 1 (3 / 4) 1
        = some ((tryStep bpEnvZero ⟨⟨0, 0, 0⟩, ⟨1, 0, 0⟩⟩ (3 / 4) 0 1 1).1, 3 / 4,
            bpGrow bpEnvZero.maxStep (3 / 4)
              ((tryStep bpEnvZero ⟨⟨0, 0, 0⟩, ⟨1, 0, 0⟩⟩ (3 / 4) 0 1 1).2
                / bpEnvZero.tolerance)) :=
  ⟨C7_adaptive_retry_loop.1 (1 / 2) 1 2 (by norm_num) (by norm_num) (by norm_num),
   C7_adaptive_retry_loop.2.1 bpEnvZero ⟨⟨0, 0, 0⟩, ⟨1, 0, 0⟩⟩ 0 1 1 1 0,
   C7_adaptive_retry_loop.2.2.1 bpEnvZero cBP
     (by rw [show bpEnvZero.minStep = 1 / 2 from rfl]; norm_num)
     (by rw [show bpEnvZero.minStep = 1 / 2 from rfl,
             show bpEnvZero.maxStep = 1 from rfl]; norm_num),
   C7_adaptive_retry_loop.2.2.2 bpEnvZero ⟨⟨0, 0, 0⟩, ⟨1, 0, 0⟩⟩ 0 1 1 (3 / 4) 1 0
     (by rw [tryStep_zeroAdv]; rw [zero_div]; norm_num)
     (by rw [show bpEnvZero.maxStep = 1 from rfl]; norm_num)⟩

end crpropa
